import Mathlib

/-!
Verification of the LEA Transaction Manifest (LTM) toolkit.

This file gives a shallow embedding, in Lean 4, of the parts of the
`LEA-Blockchain/ltm` repository relevant to the checked claims:

* `msctp/msctp.js` — the Micro-SCTP (TVF) codec: raw ULEB128/SLEB128
  coders, the streaming `MsctpEncoder` and the cursor `MsctpDecoder`;
* `src/core/transactionDecoder.mjs` — `decodeTransaction`;
* `src/core/transactionEncoder.mjs` (MSCTP variant) — `encodeInstructions`;
* `src/core/txLink.mjs` and `src/core/index.mjs` — the chain-link domain
  tag and the message-selection step of `createTransaction`;
* `src/core/manifestResolver.mjs` — the canonical address-table
  construction of `resolveManifest`.

Bytes are modelled as `Nat` (JavaScript `Uint8Array` elements are always
0..255; the encoder only ever produces values in that range).  JavaScript
`BigInt` values are modelled as `Int` (or `Nat` where the source value is
provably non-negative).  Fallible code returns `Except MsctpErr`.
-/

namespace Ltm

/-- Error codes of `msctp.js` (the `MSCTP_ERR_*` constants). -/
inductive MsctpErr where
  | invalidHeader      -- MSCTP_ERR_INVALID_HEADER (-1)
  | invalidLength      -- MSCTP_ERR_INVALID_LENGTH (-2)
  | overlongLeb128     -- MSCTP_ERR_OVERLONG_LEB128 (-3)
  | malformedLeb128    -- MSCTP_ERR_MALFORMED_LEB128 (-4)
  | sizeLimitExceeded  -- MSCTP_ERR_SIZE_LIMIT_EXCEEDED (-5)
  deriving DecidableEq, Repr

/-- Type tags of `msctp.js` (`MSCTP_TT_*`). -/
def MSCTP_TT_SLEB128 : Nat := 0x00
def MSCTP_TT_ULEB128 : Nat := 0x01
def MSCTP_TT_SMALL_VECTOR : Nat := 0x02
def MSCTP_TT_LARGE_VECTOR : Nat := 0x03

def MSCTP_MAX_SMALL_VECTOR_SIZE : Nat := 63
def MSCTP_MAX_LARGE_VECTOR_SIZE : Nat := 1048576

/-- `msctp_make_header(modifier, tt) = (modifier << 2) | (tt & 0x03)`. -/
def msctp_make_header (modifier tt : Nat) : Nat :=
  (modifier <<< 2) ||| (tt &&& 0x03)

/-- `msctp_get_tt(header) = header & 0x03`. -/
def msctp_get_tt (header : Nat) : Nat := header &&& 0x03

/-- `msctp_get_modifier(header) = header >> 2`. -/
def msctp_get_modifier (header : Nat) : Nat := header >>> 2

/-- The loop body of `_encode_raw_uleb128` for a non-negative value:
`byte = value & 0x7f; value >>= 7; if (value != 0) byte |= 0x80`.
At `v = 0` this yields `[0]`, matching the source's special case. -/
def ulebBytes (v : Nat) : List Nat :=
  let b := v &&& 0x7f
  let v' := v >>> 7
  if v' = 0 then [b] else (b ||| 0x80) :: ulebBytes v'
termination_by v
decreasing_by
  simp only [Nat.shiftRight_eq_div_pow] at *
  exact Nat.div_lt_self (by omega) (by norm_num)

/-- `_encode_raw_uleb128`: returns `null` (here `none`) for negative input. -/
def encodeRawUleb128 (value : Int) : Option (List Nat) :=
  if value < 0 then none else some (ulebBytes value.toNat)

/-- The `while (true)` loop of `_decode_raw_uleb128`; `acc` is the
accumulated `value`, `i` the running byte count. -/
def ulebDecodeLoop : List Nat → Nat → Nat → Nat → Except MsctpErr (Nat × Nat)
  | [], _, _, _ => .error .malformedLeb128
  | b :: rest, shift, acc, i =>
    let acc' := acc ||| ((b &&& 0x7f) <<< shift)
    if b &&& 0x80 = 0 then .ok (acc', i + 1)
    else ulebDecodeLoop rest (shift + 7) acc' (i + 1)

/-- `_decode_raw_uleb128`: decode, then reject overlong encodings by
re-encoding the (always non-negative) value and comparing byte counts. -/
def decodeRawUleb128 (data : List Nat) : Except MsctpErr (Nat × Nat) :=
  match ulebDecodeLoop data 0 0 0 with
  | .error e => .error e
  | .ok (value, i) =>
    if (ulebBytes value).length = i then .ok (value, i)
    else .error .overlongLeb128

/-- The loop of `_encode_raw_sleb128`.  JavaScript `value & 0x7Fn` on a
`BigInt` is the mathematical residue (`Int.emod`, written `%`), and
`value >>= 7n` is an arithmetic shift, i.e. floor division by 128, which
for the positive divisor 128 is `Int.ediv` (written `/`). -/
def slebBytes (v : Int) : List Nat :=
  -- byte = v & 0x7f; v >>= 7; signBit = (byte & 0x40) != 0;
  -- stop when (v == 0 && !signBit) || (v == -1 && signBit)
  if (v / 128 = 0 ∧ (v % 128).toNat &&& 0x40 = 0) ∨
     (v / 128 = -1 ∧ (v % 128).toNat &&& 0x40 ≠ 0) then [(v % 128).toNat]
  else ((v % 128).toNat ||| 0x80) :: slebBytes (v / 128)
termination_by v.natAbs
decreasing_by
  rename_i hstop
  have key : ((v % 128).toNat &&& 64) = (v % 128).toNat / 64 % 2 * 64 := by
    have h := Nat.and_two_pow (v % 128).toNat 6
    norm_num [Nat.testBit_to_div_mod] at h
    rcases Nat.mod_two_eq_zero_or_one ((v % 128).toNat / 64) with h2 | h2 <;>
      simp [h2] at h ⊢ <;> omega
  simp only [not_or, not_and, Decidable.not_not, ne_eq] at hstop
  omega

/-- `_encode_raw_sleb128` (never returns `null`). -/
def encodeRawSleb128 (value : Int) : List Nat := slebBytes value

/-- The `while (true)` loop of `_decode_raw_sleb128`.  Returns the
accumulated non-negative `value`, the final `shift`, the byte count and
the last byte consumed. -/
def slebDecodeLoop : List Nat → Nat → Nat → Nat → Except MsctpErr (Nat × Nat × Nat × Nat)
  | [], _, _, _ => .error .malformedLeb128
  | b :: rest, shift, acc, i =>
    let acc' := acc ||| ((b &&& 0x7f) <<< shift)
    let shift' := shift + 7   -- bump on every byte, including the last
    if b &&& 0x80 = 0 then .ok (acc', shift', i + 1, b)
    else slebDecodeLoop rest shift' acc' (i + 1)

/-- `_decode_raw_sleb128`.  During the loop the accumulated `value` is a
non-negative `BigInt` below `2 ^ shift`; on such a value the source's
sign-extension `(value & mask) | ~mask` (with `mask = (1n << shift) - 1n`)
equals `value - 2 ^ shift`, which is how it is written here.  The
canonical-length check mirrors the source. -/
def decodeRawSleb128 (data : List Nat) : Except MsctpErr (Int × Nat) :=
  match slebDecodeLoop data 0 0 0 with
  | .error e => .error e
  | .ok (acc, shift, i, lastByte) =>
    let value : Int :=
      if lastByte &&& 0x40 ≠ 0 then (acc : Int) - 2 ^ shift else (acc : Int)
    if (encodeRawSleb128 value).length = i then .ok (value, i)
    else .error .overlongLeb128

/-- `MsctpEncoder`: an append-only list of chunks. -/
structure MsctpEncoder where
  chunks : List (List Nat)
  deriving DecidableEq, Repr

def MsctpEncoder.empty : MsctpEncoder := ⟨[]⟩

/-- `MsctpEncoder.addSleb128`: header byte `msctp_make_header(0, SLEB128)`
followed by the raw payload.  (`_encode_raw_sleb128` never yields `null`,
so the `if (!payload) return` guard of the source is vacuous here.) -/
def MsctpEncoder.addSleb128 (e : MsctpEncoder) (value : Int) : MsctpEncoder :=
  ⟨e.chunks ++ [msctp_make_header 0 MSCTP_TT_SLEB128 :: encodeRawSleb128 value]⟩

/-- `MsctpEncoder.addUleb128`: if `_encode_raw_uleb128` returns `null`
(negative input) the call silently appends nothing. -/
def MsctpEncoder.addUleb128 (e : MsctpEncoder) (value : Int) : MsctpEncoder :=
  match encodeRawUleb128 value with
  | none => e
  | some payload =>
    ⟨e.chunks ++ [msctp_make_header 0 MSCTP_TT_ULEB128 :: payload]⟩

/-- `MsctpEncoder.addVector`.  `none` models a `null`/`undefined`
argument (`if (!data) return`).  A payload longer than
`MSCTP_MAX_LARGE_VECTOR_SIZE` falls through both branches of the source
and silently appends nothing. -/
def MsctpEncoder.addVector (e : MsctpEncoder) (data : Option (List Nat)) : MsctpEncoder :=
  match data with
  | none => e
  | some d =>
    let len := d.length
    if len ≤ MSCTP_MAX_SMALL_VECTOR_SIZE then
      ⟨e.chunks ++ [msctp_make_header len MSCTP_TT_SMALL_VECTOR :: d]⟩
    else if len ≤ MSCTP_MAX_LARGE_VECTOR_SIZE then
      ⟨e.chunks ++ [msctp_make_header 0 MSCTP_TT_LARGE_VECTOR ::
        (ulebBytes len ++ d)]⟩
    else e

/-- `MsctpEncoder.build`: concatenate all chunks. -/
def MsctpEncoder.build (e : MsctpEncoder) : List Nat := e.chunks.flatten

/-- `MsctpDecoder`: a cursor over a borrowed buffer. -/
structure MsctpDecoder where
  data : List Nat
  offset : Nat
  deriving DecidableEq, Repr

/-- Reading `this.data[i]`: a JavaScript out-of-range read yields
`undefined`, which the subsequent bitwise operations coerce to `0`. -/
def MsctpDecoder.byteAt (d : MsctpDecoder) (i : Nat) : Nat :=
  (d.data.get? i).getD 0

def MsctpDecoder.hasNext (d : MsctpDecoder) : Bool :=
  d.offset < d.data.length

/-- `MsctpDecoder.peekType`. -/
def MsctpDecoder.peekType (d : MsctpDecoder) : Option Nat :=
  if d.hasNext then some (msctp_get_tt (d.byteAt d.offset)) else none

/-- `MsctpDecoder.readUleb128`. -/
def MsctpDecoder.readUleb128 (d : MsctpDecoder) : Except MsctpErr (Nat × MsctpDecoder) :=
  let header := d.byteAt d.offset
  if msctp_get_tt header ≠ MSCTP_TT_ULEB128 ∨ msctp_get_modifier header ≠ 0 then
    .error .invalidHeader
  else
    match decodeRawUleb128 (d.data.drop (d.offset + 1)) with
    | .error e => .error e
    | .ok (value, bytesRead) => .ok (value, ⟨d.data, d.offset + bytesRead + 1⟩)

/-- `MsctpDecoder.readSleb128`. -/
def MsctpDecoder.readSleb128 (d : MsctpDecoder) : Except MsctpErr (Int × MsctpDecoder) :=
  let header := d.byteAt d.offset
  if msctp_get_tt header ≠ MSCTP_TT_SLEB128 ∨ msctp_get_modifier header ≠ 0 then
    .error .invalidHeader
  else
    match decodeRawSleb128 (d.data.drop (d.offset + 1)) with
    | .error e => .error e
    | .ok (value, bytesRead) => .ok (value, ⟨d.data, d.offset + bytesRead + 1⟩)

/-- `MsctpDecoder.readVector`. -/
def MsctpDecoder.readVector (d : MsctpDecoder) : Except MsctpErr (List Nat × MsctpDecoder) :=
  let header := d.byteAt d.offset
  let tt := msctp_get_tt header
  if tt = MSCTP_TT_SMALL_VECTOR then
    let len := msctp_get_modifier header
    let totalLen := 1 + len
    if d.data.length < d.offset + totalLen then .error .invalidLength
    else .ok ((d.data.drop (d.offset + 1)).take len, ⟨d.data, d.offset + totalLen⟩)
  else if tt = MSCTP_TT_LARGE_VECTOR then
    if msctp_get_modifier header ≠ 0 then .error .invalidHeader
    else
      match decodeRawUleb128 (d.data.drop (d.offset + 1)) with
      | .error e => .error e
      | .ok (len, lenBytesRead) =>
        if len > MSCTP_MAX_LARGE_VECTOR_SIZE then .error .sizeLimitExceeded
        else
          let payloadOffset := 1 + lenBytesRead
          let totalObjectSize := payloadOffset + len
          if d.data.length < d.offset + totalObjectSize then .error .invalidLength
          else .ok ((d.data.drop (d.offset + payloadOffset)).take len,
                    ⟨d.data, d.offset + totalObjectSize⟩)
  else .error .invalidHeader

/-! ## `src/core/transactionDecoder.mjs` — `decodeTransaction`

Model of `decodeTransaction(txBytes, options)` for `options = {}`:
`normalizeOptions` then yields `stripVmHeader = false` and `manifest =
null`, so no VM header is stripped and `decodeInstructions` runs with no
layout entries (every instruction is decoded by its MSCTP type tag).
The presentation-only byte decorations (`hex`, `bech32m`, `info`) and the
lazy `hashes` helpers carry no parsing decisions and are not modelled;
`lebToJson` (number vs. decimal string presentation of a BigInt) is
likewise collapsed to the numeric value itself. -/

/-- Errors thrown by `decodeTransaction` (beyond `MsctpError`s). -/
inductive TxErr where
  | msctp (e : MsctpErr)        -- a propagated MsctpError
  | tooShort                    -- 'Transaction is too short to contain a POD prefix.'
  | addressesNotMultipleOf32    -- 'Addresses vector must be a multiple of 32 bytes.'
  | unsupportedInstrType        -- 'Unsupported MSCTP instruction type …'
  | unsafeInteger               -- toSafeIndex: outside JavaScript safe integer range
  | unexpectedSignatureType     -- 'Unexpected MSCTP type … while decoding signatures.'
  | unpairedSignature           -- 'Unpaired signature vector encountered …'
  | outOfFuel                   -- modelling artifact, see the loop comments; unreachable
  deriving DecidableEq, Repr

/-- A decoded instruction (manifest-less path of `decodeInstructions`). -/
inductive DecodedInstr where
  | uleb (v : Nat)
  | sleb (v : Int)
  | vector (payload : List Nat)
  deriving DecidableEq, Repr

/-- `toSafeIndex`: `Number(bigint)` is a safe integer exactly for values
up to `2^53 - 1` (the decoded values here are non-negative). -/
def toSafeIndex (v : Nat) : Except TxErr Nat :=
  if v ≤ 9007199254740991 then .ok v else .error .unsafeInteger

/-- The `while (decoder.hasNext())` loop of `decodeInstructions` (no
manifest, so every `layoutEntry` is `undefined` and the `switch` on
`decoder.peekType()` decides).  `fuel` is a modelling artifact for the
`while` loop: every iteration consumes at least one byte, so running the
loop with more fuel than remaining bytes never hits the `0` case. -/
def decodeInstructionsLoop (fuel : Nat) (d : MsctpDecoder)
    (acc : List DecodedInstr) : Except TxErr (List DecodedInstr) :=
  match fuel with
  | 0 => .error .outOfFuel
  | fuel + 1 =>
    if ¬ d.hasNext then .ok acc
    else
      match d.peekType with
      | some tt =>
        if tt = MSCTP_TT_ULEB128 then
          match d.readUleb128 with
          | .error e => .error (.msctp e)
          | .ok (v, d') => decodeInstructionsLoop fuel d' (acc ++ [.uleb v])
        else if tt = MSCTP_TT_SLEB128 then
          match d.readSleb128 with
          | .error e => .error (.msctp e)
          | .ok (v, d') => decodeInstructionsLoop fuel d' (acc ++ [.sleb v])
        else if tt = MSCTP_TT_SMALL_VECTOR ∨ tt = MSCTP_TT_LARGE_VECTOR then
          match d.readVector with
          | .error e => .error (.msctp e)
          | .ok (payload, d') => decodeInstructionsLoop fuel d' (acc ++ [.vector payload])
        else .error .unsupportedInstrType
      | none => .error .unsupportedInstrType

/-- `decodeInstructions(vectorBytes)` with no layout entries. -/
def decodeInstructions (vectorBytes : List Nat) : Except TxErr (List DecodedInstr) :=
  decodeInstructionsLoop (vectorBytes.length + 1) ⟨vectorBytes, 0⟩ []

/-- The address-splitting `for` loop: the vector's length is a checked
multiple of 32 and each 32-byte slice becomes one address. -/
def splitAddresses (l : List Nat) : List (List Nat) :=
  if l = [] then [] else l.take 32 :: splitAddresses (l.drop 32)
termination_by l.length
decreasing_by
  rename_i h
  have : l.length ≠ 0 := fun h0 => h (List.eq_nil_of_length_eq_zero h0)
  simp [List.length_drop]
  omega

/-- Result of `decodeTransaction` (parse-relevant fields). -/
structure DecodedTx where
  pod : List Nat
  version : Nat
  sequence : Nat
  gasLimit : Nat
  gasPrice : Nat
  addresses : List (List Nat)
  invocations : List (Nat × List DecodedInstr)
  signatures : List (List Nat × List Nat)
  deriving DecidableEq, Repr

/-- The invocation-reading loop of `decodeTransaction`: while the next
item is an unsigned varint, read a `(targetIndex, instructions_vector)`
pair.  `fuel` as in `decodeInstructionsLoop`. -/
def invocationsLoop (fuel : Nat) (d : MsctpDecoder)
    (acc : List (Nat × List DecodedInstr)) :
    Except TxErr (List (Nat × List DecodedInstr) × MsctpDecoder) :=
  match fuel with
  | 0 => .error .outOfFuel
  | fuel + 1 =>
    if ¬ d.hasNext then .ok (acc, d)
    else if d.peekType ≠ some MSCTP_TT_ULEB128 then .ok (acc, d)
    else
      match d.readUleb128 with
      | .error e => .error (.msctp e)
      | .ok (targetIndexBig, d') =>
        match d'.readVector with
        | .error e => .error (.msctp e)
        | .ok (instructionsVector, d'') =>
          match toSafeIndex targetIndexBig with
          | .error e => .error e
          | .ok targetIndex =>
            match decodeInstructions instructionsVector with
            | .error e => .error e
            | .ok instrs => invocationsLoop fuel d'' (acc ++ [(targetIndex, instrs)])

/-- The signature-reading loop of `decodeTransaction`: remaining items
must all be vectors, consumed in `(ed25519, falcon512)` pairs. -/
def signaturesLoop (fuel : Nat) (d : MsctpDecoder)
    (acc : List (List Nat × List Nat)) :
    Except TxErr (List (List Nat × List Nat)) :=
  match fuel with
  | 0 => .error .outOfFuel
  | fuel + 1 =>
    if ¬ d.hasNext then .ok acc
    else if d.peekType ≠ some MSCTP_TT_SMALL_VECTOR ∧
            d.peekType ≠ some MSCTP_TT_LARGE_VECTOR then
      .error .unexpectedSignatureType
    else
      match d.readVector with
      | .error e => .error (.msctp e)
      | .ok (ed25519, d') =>
        if ¬ d'.hasNext then .error .unpairedSignature
        else
          match d'.readVector with
          | .error e => .error (.msctp e)
          | .ok (falcon512, d'') => signaturesLoop fuel d'' (acc ++ [(ed25519, falcon512)])

/-- `decodeTransaction(txBytes, {})`. -/
def decodeTransaction (txBytes : List Nat) : Except TxErr DecodedTx :=
  if txBytes.length < 32 then .error .tooShort
  else
    let pod := txBytes.take 32
    let sctpPayload := txBytes.drop 32
    match MsctpDecoder.readUleb128 ⟨sctpPayload, 0⟩ with
    | .error e => .error (.msctp e)
    | .ok (version, d1) =>
      match d1.readUleb128 with
      | .error e => .error (.msctp e)
      | .ok (sequence, d2) =>
        match d2.readVector with
        | .error e => .error (.msctp e)
        | .ok (addressBytes, d3) =>
          if addressBytes.length % 32 ≠ 0 then .error .addressesNotMultipleOf32
          else
            let addresses := splitAddresses addressBytes
            match d3.readUleb128 with
            | .error e => .error (.msctp e)
            | .ok (gasLimit, d4) =>
              match d4.readUleb128 with
              | .error e => .error (.msctp e)
              | .ok (gasPrice, d5) =>
                match invocationsLoop (sctpPayload.length + 1) d5 [] with
                | .error e => .error e
                | .ok (invocations, d6) =>
                  match signaturesLoop (sctpPayload.length + 1) d6 [] with
                  | .error e => .error e
                  | .ok signatures =>
                    .ok { pod := pod, version := version, sequence := sequence,
                          gasLimit := gasLimit, gasPrice := gasPrice,
                          addresses := addresses, invocations := invocations,
                          signatures := signatures }

/-! ## `src/core/txLink.mjs` and the signing-message selection of
`createTransaction` (`src/core/index.mjs`)

BLAKE3 is an opaque cryptographic primitive (a WebAssembly module in the
source); it is modelled as an arbitrary function parameter
`blake3 : List Nat → List Nat` applied to the concatenation of all
`update` calls. -/

/-- Errors thrown on the chain-linking path. -/
inductive LinkErr where
  | badPrevTxHash   -- 'options.prevTxHash must be a 32-byte Uint8Array'
  | badOldHash      -- 'oldHash must be a 32-byte Uint8Array'
  | badNewHash      -- 'newHash must be a 32-byte Uint8Array'
  deriving DecidableEq, Repr

/-- `DOMAIN_TX_LINK_V1`, byte for byte as written in `txLink.mjs`. -/
def DOMAIN_TX_LINK_V1 : List Nat :=
  [0x54, 0x58, 0x2D, 0x4C, 0x49, 0x4E, 0x4B, 0x2D, 0x56, 0x31,
   0x00, 0x00, 0x00, 0x00, 0x00, 0x00, 0x00, 0x00, 0x00, 0x00,
   0x00, 0x00, 0x00, 0x00, 0x00, 0x00, 0x00, 0x00, 0x00, 0x00,
   0x00, 0x00]

/-- `computeTxLinkHash(oldHash, newHash)`. -/
def computeTxLinkHash (blake3 : List Nat → List Nat)
    (oldHash newHash : List Nat) : Except LinkErr (List Nat) :=
  if oldHash.length ≠ 32 then .error .badOldHash
  else if newHash.length ≠ 32 then .error .badNewHash
  else .ok (blake3 (DOMAIN_TX_LINK_V1 ++ oldHash ++ newHash))

/-- A JavaScript value passed as `options.prevTxHash`: either a
`Uint8Array` or some other value (which fails the `instanceof` check). -/
inductive JsBytesVal where
  | bytes (b : List Nat)
  | nonBytes
  deriving DecidableEq, Repr

/-- `isAllZero`. -/
def isAllZero (arr : List Nat) : Bool := arr.all (· = 0)

/-- Lower-case hex digit of a value below 16. -/
def hexDigit (n : Nat) : Char :=
  if n < 10 then Char.ofNat (48 + n) else Char.ofNat (87 + n)

/-- `toHexString`: `byte.toString(16).padStart(2, '0')` for bytes 0..255. -/
def toHexString (bytes : List Nat) : String :=
  String.mk (bytes.flatMap (fun b => [hexDigit (b / 16 % 16), hexDigit (b % 16)]))

/-- The message-selection step of `createTransaction`
(`src/core/index.mjs`, the `prevTxHash` handling): given the base hash
`txHash` and the `prevTxHash` option (`none` when the option is absent
or `undefined`), produce `(messageToSign, linkId)`. -/
def selectMessageToSign (blake3 : List Nat → List Nat) (txHash : List Nat)
    (prev : Option JsBytesVal) : Except LinkErr (List Nat × Option String) :=
  match prev with
  | none => .ok (txHash, none)
  | some .nonBytes => .error .badPrevTxHash
  | some (.bytes p) =>
    if p.length ≠ 32 then .error .badPrevTxHash
    else if ¬ isAllZero p then
      match computeTxLinkHash blake3 p txHash with
      | .error e => .error e
      | .ok linkHash => .ok (linkHash, some (toHexString linkHash))
    else .ok (txHash, none)

/-! ## `src/core/transactionEncoder.mjs` (MSCTP variant) —
`encodeInstructions` -/

/-- A JavaScript value appearing as an instruction's operand. -/
inductive JsVal where
  | str (s : String)
  | bytes (b : List Nat)
  | num (n : Int)
  | other
  deriving DecidableEq, Repr

/-- An instruction object: keys with values, in property order
(JavaScript object keys are unique). -/
def Instruction := List (String × JsVal)

/-- Errors thrown by `encodeInstructions`. -/
inductive EncErr where
  | ambiguousInstruction    -- 'Each instruction must have exactly one operational key.'
  | invalidVectorType       -- 'Invalid type for vector …'
  | invalidInlineType       -- 'Invalid type for INLINE: expected Uint8Array'
  | unsupportedInstruction  -- 'Unsupported instruction type …'
  | badBigInt               -- 'Cannot convert value … to BigInt.'
  | notAString              -- hexToBytes: 'Input must be a string'
  | oddHexLength            -- hexToBytes: 'Hex string must have an even number of characters'
  deriving DecidableEq, Repr

/-- Value of a hex digit, `none` when the character is not one
(`parseInt` semantics: it parses the longest valid prefix). -/
def hexDigitVal (c : Char) : Option Nat :=
  if '0' ≤ c ∧ c ≤ '9' then some (c.toNat - 48)
  else if 'a' ≤ c ∧ c ≤ 'f' then some (c.toNat - 87)
  else if 'A' ≤ c ∧ c ≤ 'F' then some (c.toNat - 65 + 10)
  else none

/-- `parseInt(two-char slice, 16)` followed by a `Uint8Array` store:
an invalid first digit gives `NaN`, which the store coerces to `0`; an
invalid second digit leaves just the first digit's value. -/
def hexPairToByte (c1 c2 : Char) : Nat :=
  match hexDigitVal c1 with
  | none => 0
  | some v1 =>
    match hexDigitVal c2 with
    | none => v1
    | some v2 => 16 * v1 + v2

/-- The pairing loop of this file's `hexToBytes` (no `0x` stripping and
no character validation, unlike the resolver's variant). -/
def hexPairsToBytes : List Char → List Nat
  | c1 :: c2 :: rest => hexPairToByte c1 c2 :: hexPairsToBytes rest
  | _ => []

/-- `hexToBytes` of `transactionEncoder.mjs`. -/
def encHexToBytes (v : JsVal) : Except EncErr (List Nat) :=
  match v with
  | .str s =>
    if s.length % 2 ≠ 0 then .error .oddHexLength
    else .ok (hexPairsToBytes s.data)
  | _ => .error .notAString

/-- `BigInt(value)`: exact for integral numbers and for strings of an
optional sign followed by decimal digits (`BigInt('')` is `0n`); throws
for everything else modelled here. -/
def checkBigInt (v : JsVal) : Except EncErr Int :=
  match v with
  | .num n => .ok n
  | .str s =>
    if s = "" then .ok 0
    else if s.data.all (fun c => '0' ≤ c ∧ c ≤ '9') then
      .ok (s.data.foldl (fun acc c => 10 * acc + ((c.toNat : Int) - 48)) 0)
    else if s.data.head? = some '-' ∧ s.data.tail ≠ [] ∧
            s.data.tail.all (fun c => '0' ≤ c ∧ c ≤ '9') then
      .ok (-(s.data.tail.foldl (fun acc c => 10 * acc + ((c.toNat : Int) - 48)) 0))
    else .error .badBigInt
  | _ => .error .badBigInt

/-- The `for (const instruction of instructions)` loop of
`encodeInstructions`, threading the nested `MsctpEncoder`. -/
def encodeInstructionsGo (enc : MsctpEncoder) :
    List Instruction → Except EncErr MsctpEncoder
  | [] => .ok enc
  | instr :: rest =>
    let keys := (instr.map Prod.fst).filter (· ≠ "comment")
    if keys.length ≠ 1 then .error .ambiguousInstruction
    else
      let key := keys.headD ""
      let value := ((instr.find? (fun kv => kv.1 = key)).map Prod.snd).getD .other
      if key = "vector" then
        match value with
        | .str s =>
          match encHexToBytes (.str s) with
          | .error e => .error e
          | .ok bs => encodeInstructionsGo (enc.addVector (some bs)) rest
        | .bytes b => encodeInstructionsGo (enc.addVector (some b)) rest
        | _ => .error .invalidVectorType
      else if key = "uleb" ∨ key = "uleb128" then
        match checkBigInt value with
        | .error e => .error e
        | .ok n => encodeInstructionsGo (enc.addUleb128 n) rest
      else if key = "sleb" ∨ key = "sleb128" then
        match checkBigInt value with
        | .error e => .error e
        | .ok n => encodeInstructionsGo (enc.addSleb128 n) rest
      else if key = "INLINE" then
        match value with
        | .bytes b => encodeInstructionsGo ⟨enc.chunks ++ [b]⟩ rest
        | _ => .error .invalidInlineType
      else .error .unsupportedInstruction

/-- `encodeInstructions(instructions)` (MSCTP variant,
`transactionEncoder.mjs`). -/
def encodeInstructions (instructions : List Instruction) : Except EncErr (List Nat) :=
  match encodeInstructionsGo MsctpEncoder.empty instructions with
  | .error e => .error e
  | .ok enc => .ok enc.build

/-! ## `src/core/manifestResolver.mjs` — `resolveManifest`

The resolver's first two passes (`_resolveConstants`, `_resolvePubsets`)
are string-tree rewrites whose output is again a manifest tree; the
claims below quantify over the tree *after* those passes, which loses no
generality for statements about the address table.  Constant values are
modelled as strings: a non-string constant value that is referenced by
`$addr` makes the source throw a `TypeError` inside `decodeAddress`, and
one that is never referenced is irrelevant to the address table. -/

/-- Errors thrown by the resolver. -/
inductive ResolveErr where
  | badAddress          -- bech32m decoding failed
  | badHex              -- 'Invalid hex string: …'
  | missingFeePayer     -- "Signed manifest must have a 'feePayer' field."
  | unknownFeePayer     -- 'Fee payer … not found in signers object.'
  | unresolvedAddress   -- 'Logic error: Could not find final index for address: …'
  | podLength           -- 'Pod must be a 32-byte address …'
  deriving DecidableEq, Repr

/-- Modelled from the spec: `bech32m.mjs` is not under `src/`; per the
spec (§4.2, §6) it implements Bech32m exactly as published, with a
direct 5-bit regrouping and a 32-byte payload.  The Bech32m generator
constants. -/
def BECH32_GEN : List Nat :=
  [0x3b6a57b2, 0x26508e6d, 0x1ea119fa, 0x3d4233dd, 0x2a1462b3]

/-- Modelled from the spec: one step of the Bech32m `polymod` checksum. -/
def bech32PolymodStep (chk v : Nat) : Nat :=
  let b := chk >>> 25
  let chk' := ((chk &&& 0x1ffffff) <<< 5) ^^^ v
  (List.range 5).foldl
    (fun c i => if (b >>> i) &&& 1 = 1 then c ^^^ BECH32_GEN.getD i 0 else c) chk'

/-- Modelled from the spec: the Bech32m `polymod` over a value list. -/
def bech32Polymod (values : List Nat) : Nat :=
  values.foldl bech32PolymodStep 1

/-- Modelled from the spec: `hrpExpand`. -/
def bech32HrpExpand (hrp : String) : List Nat :=
  hrp.data.map (fun c => c.toNat >>> 5) ++ [0] ++ hrp.data.map (fun c => c.toNat &&& 31)

/-- Modelled from the spec: the Bech32m character set. -/
def BECH32_CHARSET : List Char := "qpzry9x8gf2tvdw0s3jn54khce6mua7l".data

/-- Index of a character in the Bech32m charset. -/
def bech32CharIndex (c : Char) : Option Nat :=
  (List.range 32).find? (fun i => BECH32_CHARSET.getD i ' ' = c)

/-- Modelled from the spec: 5-bit groups back to 8-bit bytes with strict
padding validation (`convertbits(data, 5, 8, pad=false)`).  Between
iterations `bits < 8`, so at most one byte is emitted per group. -/
def bech32Regroup : List Nat → Nat → Nat → List Nat → Option (List Nat)
  | [], acc, bits, out =>
    if bits ≥ 5 ∨ (acc <<< (8 - bits)) &&& 0xff ≠ 0 then none else some out
  | v :: rest, acc, bits, out =>
    let acc' := (acc <<< 5) ||| v
    let bits' := bits + 5
    if bits' ≥ 8 then
      bech32Regroup rest (acc' &&& ((1 <<< (bits' - 8)) - 1)) (bits' - 8)
        (out ++ [(acc' >>> (bits' - 8)) &&& 0xff])
    else bech32Regroup rest acc' bits' out

/-- Position of the last `'1'` in a character list, if any. -/
def lastSeparatorIdx (cs : List Char) : Option Nat :=
  (List.range cs.length).foldl
    (fun best i => if cs.getD i ' ' = '1' then some i else best) none

/-- Modelled from the spec: Bech32m decoding with expected HRP `hrp`,
validating charset membership, the HRP, the Bech32m checksum and the
32-byte payload length (`BadAddress` on every failure).  Upper-case
strings are rejected (mixed case is invalid per the published spec; the
strings reaching this point start with `"lea1"`). -/
def bech32mDecode (hrp : String) (s : String) : Except ResolveErr (List Nat) :=
  let cs := s.data
  if cs.any (fun c => 'A' ≤ c ∧ c ≤ 'Z') then .error .badAddress
  else if cs.length > 90 then .error .badAddress
  else
    match lastSeparatorIdx cs with
    | none => .error .badAddress
    | some pos =>
      let hrpPart := cs.take pos
      let dataPart := cs.drop (pos + 1)
      if hrpPart ≠ hrp.data then .error .badAddress
      else if dataPart.length < 6 then .error .badAddress
      else
        match dataPart.mapM bech32CharIndex with
        | none => .error .badAddress
        | some vals =>
          if bech32Polymod (bech32HrpExpand hrp ++ vals) ≠ 0x2bc830a3 then
            .error .badAddress
          else
            match bech32Regroup (vals.take (vals.length - 6)) 0 0 [] with
            | none => .error .badAddress
            | some bytes =>
              if bytes.length ≠ 32 then .error .badAddress else .ok bytes

/-- JavaScript `String.prototype.startsWith`, phrased over the character
list so that it evaluates definitionally. -/
def strStartsWith (s pre : String) : Bool :=
  decide (s.data.take pre.data.length = pre.data)

/-- JavaScript `String.prototype.endsWith`, phrased over the character
list so that it evaluates definitionally. -/
def strEndsWith (s post : String) : Bool :=
  decide (post.data.length ≤ s.data.length ∧
    s.data.drop (s.data.length - post.data.length) = post.data)

/-- `hexToBytes` of `manifestResolver.mjs`: strip an optional `0x`,
reject odd lengths and non-hex characters, then parse byte pairs. -/
def resolverHexToBytes (s : String) : Except ResolveErr (List Nat) :=
  let hex := if strStartsWith s "0x" then s.drop 2 else s
  if hex.length % 2 ≠ 0 ∨ hex.data.any (fun c => hexDigitVal c = none) then
    .error .badHex
  else .ok (hexPairsToBytes hex.data)

/-- `decodeAddress` of `manifestResolver.mjs`. -/
def decodeAddress (addressStr : String) : Except ResolveErr (List Nat) :=
  if strStartsWith addressStr "lea1" then bech32mDecode "lea" addressStr
  else resolverHexToBytes addressStr

/-- `compareByteArrays`: elementwise difference at the first mismatch,
otherwise the length difference. -/
def compareByteArrays : List Nat → List Nat → Int
  | [], b => -(b.length : Int)
  | a, [] => (a.length : Int)
  | x :: xs, y :: ys =>
    if x ≠ y then (x : Int) - (y : Int) else compareByteArrays xs ys

/-- `.sort(compareByteArrays)`: a comparator sort.  `compareByteArrays`
is a consistent comparator whose ties are exactly equal arrays, so the
sorted result is the unique nondecreasing reordering; it is modelled by
`mergeSort`. -/
def sortByteArrays (l : List (List Nat)) : List (List Nat) :=
  l.mergeSort (fun a b => decide (compareByteArrays a b ≤ 0))

/-- `bytesToHex` of `manifestResolver.mjs` (same digit-by-digit format
as `toHexString`). -/
def bytesToHex (bytes : List Nat) : String := toHexString bytes

/-- `new Map(list.map((bytes, i) => [bytesToHex(bytes), i])).get(bytesToHex b)`:
later entries overwrite earlier ones, so this is the *last* index whose
hex key matches. -/
def lastIndexByHex (l : List (List Nat)) (b : List Nat) : Option Nat :=
  (List.range l.length).foldl
    (fun best i => if bytesToHex (l.getD i []) = bytesToHex b then some i else best)
    none

/-- A signer entry as used by the resolver: its key handler's
`address.bech32m` string and `address.raw` bytes. -/
structure Signer where
  bech32m : String
  raw : List Nat
  deriving DecidableEq, Repr

/-- A manifest tree after constant and pubset substitution: byte arrays
are leaves, other scalars (numbers, booleans, null) are inert. -/
inductive MVal where
  | bytes (b : List Nat)
  | str (s : String)
  | num (n : Int)
  | arr (items : List MVal)
  | obj (fields : List (String × MVal))

/-- The anchored regex `^\$addr\((.+)\)$`: `.` does not match a line
terminator (`\n`, `\r`, U+2028, U+2029; only the first two can appear in
the byte-oriented strings modelled here). -/
def parseAddrDirective (s : String) : Option String :=
  if strStartsWith s "$addr(" ∧ strEndsWith s ")" ∧ 8 ≤ s.length ∧
     ¬ ((s.drop 6).dropRight 1).data.any (fun c => c = '\n' ∨ c = '\r') then
    some ((s.drop 6).dropRight 1)
  else none

/-- `_buildAliasMap`: signers first, then constants — on a name clash
the constant wins (`Map.set` overwrites). -/
def aliasLookup (signers : List (String × Signer))
    (constants : List (String × String)) (name : String) : Option String :=
  match constants.find? (fun kv => kv.1 = name) with
  | some kv => some kv.2
  | none => (signers.find? (fun kv => kv.1 = name)).map (fun kv => kv.2.bech32m)

/-- `aliasMap.get(key) || key`: an empty-string alias value is falsy in
JavaScript and falls back to the key itself. -/
def aliasOrKey (signers : List (String × Signer))
    (constants : List (String × String)) (key : String) : String :=
  match aliasLookup signers constants key with
  | some v => if v = "" then key else v
  | none => key

/-- JavaScript `Set.add`: keep insertion order, ignore duplicates. -/
def setInsert (l : List String) (s : String) : List String :=
  if s ∈ l then l else l ++ [s]

mutual

/-- `_collectLiteralAddressStrings`: walk the tree and add the resolved
literal of every `$addr(...)` string to the set.  (A `Uint8Array` leaf is
walked as an object of numeric values in the source, contributing no
strings.) -/
def collectLits (signers : List (String × Signer))
    (constants : List (String × String)) : MVal → List String → List String
  | .bytes _, acc => acc
  | .num _, acc => acc
  | .str s, acc =>
    match parseAddrDirective s with
    | some key => setInsert acc (aliasOrKey signers constants key)
    | none => acc
  | .arr items, acc => collectLitsList signers constants items acc
  | .obj fields, acc => collectLitsObj signers constants fields acc

def collectLitsList (signers : List (String × Signer))
    (constants : List (String × String)) : List MVal → List String → List String
  | [], acc => acc
  | v :: rest, acc =>
    collectLitsList signers constants rest (collectLits signers constants v acc)

def collectLitsObj (signers : List (String × Signer))
    (constants : List (String × String)) :
    List (String × MVal) → List String → List String
  | [], acc => acc
  | (_, v) :: rest, acc =>
    collectLitsObj signers constants rest (collectLits signers constants v acc)

end

/-- `list.map(decodeAddress)` — throws at the first failure. -/
def decodeAll : List String → Except ResolveErr (List (List Nat))
  | [] => .ok []
  | s :: rest =>
    match decodeAddress s with
    | .error e => .error e
    | .ok b =>
      match decodeAll rest with
      | .error e => .error e
      | .ok bs => .ok (b :: bs)

/-- The map-building loop shared by both branches of
`_createCanonicalAddressListAndIndexMap`: for each literal, decode it,
find its (last) index by hex in the final list, and record the pair when
found. -/
def buildIndexMap (finalList : List (List Nat)) :
    List String → Except ResolveErr (List (String × Nat))
  | [] => .ok []
  | lit :: rest =>
    match decodeAddress lit with
    | .error e => .error e
    | .ok b =>
      match buildIndexMap finalList rest with
      | .error e => .error e
      | .ok m =>
        match lastIndexByHex finalList b with
        | some i => .ok ((lit, i) :: m)
        | none => .ok m

/-- `_createCanonicalAddressListAndIndexMap`. -/
def createCanonicalAddressList (literalAddressSet : List String)
    (feePayerAlias : Option String) (signers : List (String × Signer)) :
    Except ResolveErr (List (List Nat) × List (String × Nat)) :=
  if signers.isEmpty then
    match decodeAll literalAddressSet with
    | .error e => .error e
    | .ok decoded =>
      let nonSignerBytes := sortByteArrays decoded
      match buildIndexMap nonSignerBytes literalAddressSet with
      | .error e => .error e
      | .ok indexMap => .ok (nonSignerBytes, indexMap)
  else
    match feePayerAlias with
    | none => .error .missingFeePayer
    | some fp =>
      match signers.find? (fun kv => kv.1 = fp) with
      | none => .error .unknownFeePayer
      | some fpSigner =>
        let feePayerLiteralAddress := fpSigner.2.bech32m
        let feePayerBytes := fpSigner.2.raw
        let signerLiteralAddresses :=
          (signers.map (fun kv => kv.2.bech32m)).foldl setInsert []
        let otherSignerLiterals :=
          signerLiteralAddresses.filter (· ≠ feePayerLiteralAddress)
        match decodeAll otherSignerLiterals with
        | .error e => .error e
        | .ok otherDecoded =>
          let otherSignerBytes := sortByteArrays otherDecoded
          let nonSignerLiterals :=
            literalAddressSet.filter (· ∉ signerLiteralAddresses)
          match decodeAll nonSignerLiterals with
          | .error e => .error e
          | .ok nonSignerDecoded =>
            let nonSignerBytes := sortByteArrays nonSignerDecoded
            let finalList := feePayerBytes :: (otherSignerBytes ++ nonSignerBytes)
            let allKnownLiterals :=
              signerLiteralAddresses.foldl setInsert literalAddressSet
            match buildIndexMap finalList allKnownLiterals with
            | .error e => .error e
            | .ok indexMap => .ok (finalList, indexMap)

mutual

/-- `_resolveToIndices`: replace every `$addr(...)` string by its final
index; fail when the literal is absent from the index map. -/
def resolveToIndices (signers : List (String × Signer))
    (constants : List (String × String)) (indexMap : List (String × Nat)) :
    MVal → Except ResolveErr MVal
  | .bytes b => .ok (.bytes b)
  | .num n => .ok (.num n)
  | .str s =>
    match parseAddrDirective s with
    | some key =>
      let literalAddress := aliasOrKey signers constants key
      match indexMap.find? (fun kv => kv.1 = literalAddress) with
      | some kv => .ok (.num kv.2)
      | none => .error .unresolvedAddress
    | none => .ok (.str s)
  | .arr items =>
    match resolveToIndicesList signers constants indexMap items with
    | .error e => .error e
    | .ok items' => .ok (.arr items')
  | .obj fields =>
    match resolveToIndicesObj signers constants indexMap fields with
    | .error e => .error e
    | .ok fields' => .ok (.obj fields')

def resolveToIndicesList (signers : List (String × Signer))
    (constants : List (String × String)) (indexMap : List (String × Nat)) :
    List MVal → Except ResolveErr (List MVal)
  | [] => .ok []
  | v :: rest =>
    match resolveToIndices signers constants indexMap v with
    | .error e => .error e
    | .ok v' =>
      match resolveToIndicesList signers constants indexMap rest with
      | .error e => .error e
      | .ok rest' => .ok (v' :: rest')

def resolveToIndicesObj (signers : List (String × Signer))
    (constants : List (String × String)) (indexMap : List (String × Nat)) :
    List (String × MVal) → Except ResolveErr (List (String × MVal))
  | [] => .ok []
  | (k, v) :: rest =>
    match resolveToIndices signers constants indexMap v with
    | .error e => .error e
    | .ok v' =>
      match resolveToIndicesObj signers constants indexMap rest with
      | .error e => .error e
      | .ok rest' => .ok ((k, v') :: rest')

end

/-- The resolver's input, with the template taken after the constant and
pubset substitution passes (see the section comment). -/
structure ManifestInput where
  pod : Option String
  template : MVal
  constants : List (String × String)
  signers : List (String × Signer)

/-- `constResolvedManifest.feePayer` with JavaScript truthiness: a
missing field, a non-string value or an empty string all fail the
`if (!feePayerAlias)` guard. -/
def getFeePayerAlias (template : MVal) : Option String :=
  match template with
  | .obj fields =>
    match fields.find? (fun kv => kv.1 = "feePayer") with
    | some (_, .str s) => if s = "" then none else some s
    | _ => none
  | _ => none

/-- The resolver's output (address table, `feePayer` marker and the
index-substituted body; scalar passthrough fields are omitted). -/
structure ResolvedManifest where
  addresses : List (List Nat)
  feePayer : Option Nat
  body : MVal

/-- `resolveManifest` (passes 2–5 over a substituted template). -/
def resolveManifest (input : ManifestInput) : Except ResolveErr ResolvedManifest :=
  match (match input.pod with
         | some p => decodeAddress p
         | none => .ok (List.replicate 32 0x11)) with
  | .error e => .error e
  | .ok podBytes =>
    if podBytes.length ≠ 32 then .error .podLength
    else
      let literalAddressSet := collectLits input.signers input.constants input.template []
      match createCanonicalAddressList literalAddressSet
          (getFeePayerAlias input.template) input.signers with
      | .error e => .error e
      | .ok (finalAddressList, indexMap) =>
        match resolveToIndices input.signers input.constants indexMap input.template with
        | .error e => .error e
        | .ok body =>
          .ok { addresses := finalAddressList,
                feePayer := if input.signers.isEmpty then none else some 0,
                body := body }

/-- The value denoted by a list of 7-bit groups, least significant
first (each group read modulo its continuation bit). -/
def leb7Value : List Nat → Nat
  | [] => 0
  | b :: rest => (b &&& 0x7f) + 128 * leb7Value rest

/-! ## Helper lemmas -/

theorem land127_eq_mod (x : Nat) : x &&& 127 = x % 128 := by
  have h := Nat.and_pow_two_sub_one_eq_mod x 7
  norm_num at h
  exact h

theorem shiftRight7_eq_div (x : Nat) : x >>> 7 = x / 128 := by
  rw [Nat.shiftRight_eq_div_pow]

theorem land_two_pow_arith (x i : Nat) : x &&& 2 ^ i = x / 2 ^ i % 2 * 2 ^ i := by
  have h := Nat.and_two_pow x i
  rw [Nat.testBit_to_div_mod] at h
  rcases Nat.mod_two_eq_zero_or_one (x / 2 ^ i) with h2 | h2 <;>
    simp [h2] at h ⊢ <;> omega

theorem land128_eq (x : Nat) : x &&& 128 = x / 128 % 2 * 128 := by
  have := land_two_pow_arith x 7
  norm_num at this
  exact this

theorem land64_eq (x : Nat) : x &&& 64 = x / 64 % 2 * 64 := by
  have := land_two_pow_arith x 6
  norm_num at this
  exact this

theorem lor_shift_add (s a b : Nat) (h : a < 2 ^ s) :
    a ||| (b <<< s) = a + b * 2 ^ s := by
  induction s generalizing a b with
  | zero =>
    interval_cases a
    simp [Nat.shiftLeft_eq]
  | succ n ih =>
    have hd : a / 2 < 2 ^ n := by
      rw [pow_succ] at h; omega
    have e1 : a = Nat.bit (Nat.bodd a) (Nat.div2 a) := (Nat.bit_decomp a).symm
    have e2 : b <<< (n + 1) = Nat.bit false (b <<< n) := by
      simp [Nat.bit, Nat.shiftLeft_eq, pow_succ]; ring
    rw [e1, e2, Nat.lor_bit]
    have hdiv2 : Nat.div2 a = a / 2 := Nat.div2_val a
    rw [Bool.or_false, Nat.bit_val, Nat.bit_val, hdiv2, ih (a / 2) b hd]
    have hmod : (Nat.bodd a).toNat = a % 2 := by
      rw [← Nat.mod_two_of_bodd]
    rw [hmod, pow_succ]
    have := Nat.div_add_mod a 2
    ring_nf

theorem lor128_small (a : Nat) (h : a < 128) : a ||| 128 = a + 128 := by
  have h1 := lor_shift_add 7 a 1 (by omega)
  have h2 : (1 : Nat) <<< 7 = 128 := by norm_num [Nat.shiftLeft_eq]
  rw [h2] at h1
  norm_num at h1
  exact h1

theorem lor128_land127 (x : Nat) : (x ||| 128) &&& 127 = x &&& 127 := by
  apply Nat.eq_of_testBit_eq
  intro i
  simp only [Nat.testBit_and, Nat.testBit_lor]
  rcases Nat.lt_or_ge i 7 with hi | hi
  · have h128 : Nat.testBit 128 i = false := by
      rw [Nat.testBit_to_div_mod]
      interval_cases i <;> decide
    simp [h128]
  · have h127 : Nat.testBit 127 i = false := by
      rw [Nat.testBit_to_div_mod]
      have : (127 : Nat) / 2 ^ i = 0 := Nat.div_eq_of_lt (by
        calc (127 : Nat) < 2 ^ 7 := by norm_num
        _ ≤ 2 ^ i := Nat.pow_le_pow_right (by norm_num) hi)
      simp [this]
    simp [h127]

theorem lor128_land128 (x : Nat) : (x ||| 128) &&& 128 = 128 := by
  have h := land_two_pow_arith (x ||| 128) 7
  norm_num at h
  rw [h]
  have : Nat.testBit (x ||| 128) 7 = true := by
    rw [Nat.testBit_lor]
    have : Nat.testBit 128 7 = true := by decide
    simp [this]
  rw [Nat.testBit_to_div_mod] at this
  simp at this
  omega

theorem leb7Value_lt (l : List Nat) : leb7Value l < 2 ^ (7 * l.length) := by
  induction l with
  | nil => simp [leb7Value]
  | cons b rest ih =>
    simp only [leb7Value, List.length_cons]
    have hb : b &&& 127 < 128 := by
      rw [land127_eq_mod]; omega
    have : 2 ^ (7 * (rest.length + 1)) = 128 * 2 ^ (7 * rest.length) := by
      rw [Nat.mul_add, pow_add]; ring
    rw [this]
    omega

/-! ## C10 — `MsctpEncoder.addVector` silently drops `null` and
oversized vectors -/

/-- C10: for a `null`/`undefined` argument, and for any payload longer
than 1 MiB, `MsctpEncoder.addVector` raises no error and appends no
chunk, so the encoder state — and hence any later `build()` — is
unchanged. -/
theorem addVector_silently_drops_oversized :
    (∀ e : MsctpEncoder, e.addVector none = e) ∧
    (∀ (e : MsctpEncoder) (data : List Nat), data.length > 1048576 →
      e.addVector (some data) = e ∧
      (e.addVector (some data)).build = e.build) := by
  constructor
  · intro e
    rfl
  · intro e data h
    have : e.addVector (some data) = e := by
      simp only [MsctpEncoder.addVector, MSCTP_MAX_SMALL_VECTOR_SIZE,
        MSCTP_MAX_LARGE_VECTOR_SIZE]
      rw [if_neg (by omega), if_neg (by omega)]
    exact ⟨this, by rw [this]⟩

/-- Witness for C10 at a concrete oversized input. -/
theorem addVector_silently_drops_oversized_witness :
    MsctpEncoder.empty.addVector (some (List.replicate 1048577 0)) =
      MsctpEncoder.empty :=
  (addVector_silently_drops_oversized.2 MsctpEncoder.empty
    (List.replicate 1048577 0) (by rw [List.length_replicate]; decide)).1

/-! ## ULEB128 round-trip -/

theorem ulebBytes_small (v : Nat) (h : v < 128) : ulebBytes v = [v] := by
  rw [ulebBytes]
  have h7 : v >>> 7 = 0 := by rw [shiftRight7_eq_div]; omega
  have hb : v &&& 127 = v := by rw [land127_eq_mod]; omega
  simp [h7, hb]

theorem ulebBytes_large (v : Nat) (h : 128 ≤ v) :
    ulebBytes v = ((v &&& 127) ||| 128) :: ulebBytes (v >>> 7) := by
  rw [ulebBytes]
  have h7 : v >>> 7 ≠ 0 := by rw [shiftRight7_eq_div]; omega
  simp [h7]

theorem ulebDecodeLoop_cons (b : Nat) (rest : List Nat) (shift acc i : Nat) :
    ulebDecodeLoop (b :: rest) shift acc i =
      if b &&& 0x80 = 0 then .ok (acc ||| ((b &&& 0x7f) <<< shift), i + 1)
      else ulebDecodeLoop rest (shift + 7) (acc ||| ((b &&& 0x7f) <<< shift)) (i + 1) :=
  rfl

theorem ulebLoop_spec (v : Nat) : ∀ (tail : List Nat) (shift acc i : Nat),
    acc < 2 ^ shift →
    ulebDecodeLoop (ulebBytes v ++ tail) shift acc i =
      .ok (acc + v * 2 ^ shift, i + (ulebBytes v).length) := by
  induction v using Nat.strong_induction_on with
  | _ v ih =>
    intro tail shift acc i hacc
    rcases Nat.lt_or_ge v 128 with hv | hv
    · rw [ulebBytes_small v hv, List.cons_append, List.nil_append,
        ulebDecodeLoop_cons]
      have hstop : v &&& 128 = 0 := by
        rw [land128_eq]
        have : v / 128 = 0 := by omega
        simp [this]
      rw [if_pos hstop]
      have hb : v &&& 127 = v := by rw [land127_eq_mod]; omega
      rw [hb, lor_shift_add shift acc v hacc]
      rfl
    · rw [ulebBytes_large v hv, List.cons_append, ulebDecodeLoop_cons]
      have hcont : ((v &&& 127) ||| 128) &&& 128 = 128 := lor128_land128 _
      rw [if_neg (by rw [show (0x80 : Nat) = 128 from rfl, hcont]; omega)]
      have hlow : ((v &&& 127) ||| 128) &&& 127 = v &&& 127 := by
        rw [lor128_land127, Nat.and_assoc, Nat.and_self]
      have hlt : v >>> 7 < v := by
        rw [shiftRight7_eq_div]
        exact Nat.div_lt_self (by omega) (by norm_num)
      have hmod : v &&& 127 = v % 128 := land127_eq_mod v
      have haccB : acc ||| ((((v &&& 127) ||| 128) &&& 127) <<< shift) =
          acc + v % 128 * 2 ^ shift := by
        rw [hlow, hmod, lor_shift_add shift acc (v % 128) hacc]
      have haccLt : acc + v % 128 * 2 ^ shift < 2 ^ (shift + 7) := by
        have h1 : v % 128 * 2 ^ shift ≤ 127 * 2 ^ shift :=
          Nat.mul_le_mul_right _ (by omega)
        have h2 : 2 ^ (shift + 7) = 128 * 2 ^ shift := by
          rw [pow_add]; ring
        omega
      rw [show (0x7f : Nat) = 127 from rfl, haccB,
        ih (v >>> 7) hlt tail (shift + 7) _ (i + 1) haccLt]
      congr 1
      congr 1
      · have hdm : v = 128 * (v / 128) + v % 128 := by omega
        rw [shiftRight7_eq_div]
        have h2 : 2 ^ (shift + 7) = 2 ^ shift * 128 := by
          rw [pow_add]; ring
        rw [h2]
        conv_rhs => rw [hdm]
        ring
      · rw [List.length_cons]
        omega

theorem decodeRawUleb128_of_encode (v : Nat) (tail : List Nat) :
    decodeRawUleb128 (ulebBytes v ++ tail) = .ok (v, (ulebBytes v).length) := by
  rw [decodeRawUleb128, ulebLoop_spec v tail 0 0 0 (by norm_num)]
  simp

/-! ## SLEB128 round-trip -/

theorem sleb_signBit_zero_iff (v : Int) :
    (v % 128).toNat &&& 64 = 0 ↔ v % 128 < 64 := by
  rw [land64_eq]
  omega

theorem slebBytes_stop (v : Int)
    (h : (v / 128 = 0 ∧ v % 128 < 64) ∨ (v / 128 = -1 ∧ 64 ≤ v % 128)) :
    slebBytes v = [(v % 128).toNat] := by
  rw [slebBytes]
  rcases h with ⟨h1, h2⟩ | ⟨h1, h2⟩
  · rw [if_pos (Or.inl ⟨h1, (sleb_signBit_zero_iff v).mpr h2⟩)]
  · rw [if_pos (Or.inr ⟨h1, fun h0 => by
      rw [sleb_signBit_zero_iff] at h0; omega⟩)]

theorem slebBytes_cont (v : Int)
    (h : ¬ ((v / 128 = 0 ∧ v % 128 < 64) ∨ (v / 128 = -1 ∧ 64 ≤ v % 128))) :
    slebBytes v = ((v % 128).toNat ||| 128) :: slebBytes (v / 128) := by
  rw [slebBytes]
  rw [if_neg]
  intro hc
  apply h
  rcases hc with ⟨h1, h2⟩ | ⟨h1, h2⟩
  · exact Or.inl ⟨h1, (sleb_signBit_zero_iff v).mp h2⟩
  · refine Or.inr ⟨h1, ?_⟩
    by_contra h3
    exact h2 ((sleb_signBit_zero_iff v).mpr (by omega))

theorem slebBytes_ne_nil (v : Int) : slebBytes v ≠ [] := by
  rw [slebBytes]
  split <;> simp

theorem slebDecodeLoop_cons (b : Nat) (rest : List Nat) (shift acc i : Nat) :
    slebDecodeLoop (b :: rest) shift acc i =
      if b &&& 0x80 = 0 then
        .ok (acc ||| ((b &&& 0x7f) <<< shift), shift + 7, i + 1, b)
      else slebDecodeLoop rest (shift + 7) (acc ||| ((b &&& 0x7f) <<< shift)) (i + 1) :=
  rfl

theorem slebLoop_spec_aux : ∀ (n : Nat) (v : Int), v.natAbs ≤ n →
    ∀ (tail : List Nat) (shift acc i : Nat), acc < 2 ^ shift →
    ∃ N : Nat,
      (N : Int) = v + (if (slebBytes v).getLastD 0 &&& 64 ≠ 0 then
        2 ^ (7 * (slebBytes v).length) else 0) ∧
      N < 2 ^ (7 * (slebBytes v).length) ∧
      slebDecodeLoop (slebBytes v ++ tail) shift acc i =
        .ok (acc + N * 2 ^ shift, shift + 7 * (slebBytes v).length,
             i + (slebBytes v).length, (slebBytes v).getLastD 0) := by
  intro n
  induction n with
  | zero =>
    intro v hv tail shift acc i hacc
    have hv0 : v = 0 := by omega
    subst hv0
    refine ⟨0, ?_, ?_, ?_⟩
    · norm_num [slebBytes_stop 0 (by norm_num)]
    · rw [slebBytes_stop 0 (by norm_num)]
      norm_num
    · rw [slebBytes_stop 0 (by norm_num), List.cons_append, List.nil_append,
        slebDecodeLoop_cons]
      norm_num
  | succ n ih =>
    intro v hv tail shift acc i hacc
    by_cases hstop : (v / 128 = 0 ∧ v % 128 < 64) ∨ (v / 128 = -1 ∧ 64 ≤ v % 128)
    · -- final byte
      rw [slebBytes_stop v hstop]
      have hblt : (v % 128).toNat < 128 := by omega
      have hnoCont : (v % 128).toNat &&& 0x80 = 0 := by
        rw [show (0x80 : Nat) = 128 from rfl, land128_eq]
        have : (v % 128).toNat / 128 = 0 := by omega
        simp [this]
      have hlow : (v % 128).toNat &&& 0x7f = (v % 128).toNat := by
        rw [show (0x7f : Nat) = 127 from rfl, land127_eq_mod]
        omega
      have hg : ([(v % 128).toNat] : List Nat).getLastD 0 = (v % 128).toNat := rfl
      have hl : ([(v % 128).toNat] : List Nat).length = 1 := rfl
      refine ⟨(v % 128).toNat, ?_, ?_, ?_⟩
      · rw [hg, hl]
        rcases hstop with ⟨h1, h2⟩ | ⟨h1, h2⟩
        · have hsb : (v % 128).toNat &&& 64 = 0 := (sleb_signBit_zero_iff v).mpr h2
          rw [if_neg (by simp [hsb])]
          omega
        · have hsb : (v % 128).toNat &&& 64 ≠ 0 := fun h0 => by
            rw [sleb_signBit_zero_iff] at h0; omega
          rw [if_pos hsb, show ((2 : Int) ^ (7 * 1)) = 128 by norm_num]
          omega
      · rw [hl]
        norm_num
        omega
      · rw [List.cons_append, List.nil_append, slebDecodeLoop_cons, if_pos hnoCont,
          hlow, lor_shift_add shift acc _ hacc, hg, hl]
    · -- continuation byte
      rw [slebBytes_cont v hstop]
      have hblt : (v % 128).toNat < 128 := by omega
      have hdec : (v / 128).natAbs < v.natAbs := by omega
      obtain ⟨N', hN', hN'lt, hloop'⟩ :=
        ih (v / 128) (by omega) tail (shift + 7)
          (acc + (v % 128).toNat * 2 ^ shift) (i + 1)
          (by
            have h1 : (v % 128).toNat * 2 ^ shift ≤ 127 * 2 ^ shift :=
              Nat.mul_le_mul_right _ (by omega)
            have h2 : 2 ^ (shift + 7) = 128 * 2 ^ shift := by
              rw [pow_add]; ring
            omega)
      have hcont : ((v % 128).toNat ||| 128) &&& 0x80 = 128 := lor128_land128 _
      have hlow : ((v % 128).toNat ||| 128) &&& 0x7f = (v % 128).toNat := by
        rw [show (0x7f : Nat) = 127 from rfl, lor128_land127, land127_eq_mod]
        omega
      have hlast : ∀ d : Nat,
          (((v % 128).toNat ||| 128) :: slebBytes (v / 128)).getLastD d =
            (slebBytes (v / 128)).getLastD 0 := by
        intro d
        rcases hne : slebBytes (v / 128) with _ | ⟨x, xs⟩
        · exact absurd hne (slebBytes_ne_nil _)
        · rfl
      refine ⟨(v % 128).toNat + 128 * N', ?_, ?_, ?_⟩
      · rw [hlast 0]
        push_cast
        rw [hN']
        have hdm : 128 * (v / 128) + v % 128 = v := Int.ediv_add_emod v 128
        have hlen : (((v % 128).toNat ||| 128) :: slebBytes (v / 128)).length =
            (slebBytes (v / 128)).length + 1 := by simp
        rw [hlen]
        split <;> rename_i hsb
        · have : (2 : Int) ^ (7 * ((slebBytes (v / 128)).length + 1)) =
              128 * 2 ^ (7 * (slebBytes (v / 128)).length) := by
            rw [Nat.mul_add, pow_add]
            push_cast
            ring
          rw [this]
          omega
        · omega
      · have hlen : (((v % 128).toNat ||| 128) :: slebBytes (v / 128)).length =
            (slebBytes (v / 128)).length + 1 := by simp
        rw [hlen]
        have : 2 ^ (7 * ((slebBytes (v / 128)).length + 1)) =
            128 * 2 ^ (7 * (slebBytes (v / 128)).length) := by
          rw [Nat.mul_add, pow_add]
          ring
        rw [this]
        omega
      · rw [List.cons_append, slebDecodeLoop_cons,
          if_neg (by rw [hcont]; omega), hlow,
          lor_shift_add shift acc _ hacc, hloop', hlast 0]
        have h2 : 2 ^ (shift + 7) = 2 ^ shift * 128 := by
          rw [pow_add]; ring
        simp only [List.length_cons, Except.ok.injEq, Prod.mk.injEq]
        refine ⟨?_, ?_, ?_, trivial⟩
        · rw [h2]; ring
        · ring
        · ring

theorem slebLoop_spec (v : Int) (tail : List Nat) (shift acc i : Nat)
    (hacc : acc < 2 ^ shift) :
    ∃ N : Nat,
      (N : Int) = v + (if (slebBytes v).getLastD 0 &&& 64 ≠ 0 then
        2 ^ (7 * (slebBytes v).length) else 0) ∧
      N < 2 ^ (7 * (slebBytes v).length) ∧
      slebDecodeLoop (slebBytes v ++ tail) shift acc i =
        .ok (acc + N * 2 ^ shift, shift + 7 * (slebBytes v).length,
             i + (slebBytes v).length, (slebBytes v).getLastD 0) :=
  slebLoop_spec_aux v.natAbs v le_rfl tail shift acc i hacc

theorem decodeRawSleb128_of_encode (v : Int) (tail : List Nat) :
    decodeRawSleb128 (slebBytes v ++ tail) = .ok (v, (slebBytes v).length) := by
  obtain ⟨N, hN, hNlt, hloop⟩ := slebLoop_spec v tail 0 0 0 (by norm_num)
  rw [decodeRawSleb128, hloop]
  simp only [Nat.zero_add, Nat.pow_zero, Nat.mul_one]
  have hval : (if (slebBytes v).getLastD 0 &&& 0x40 ≠ 0 then
      (N : Int) - 2 ^ (7 * (slebBytes v).length) else (N : Int)) = v := by
    split <;> rename_i hsb
    · rw [hN, if_pos (by simpa using hsb)]
      ring
    · rw [hN, if_neg (by simpa using hsb)]
      ring
  rw [hval, show encodeRawSleb128 v = slebBytes v from rfl, if_pos rfl]

/-! ## C2 — TVF primitive round-trips through the encoder/decoder pair -/

theorem addUleb128_empty_build (u : Nat) :
    (MsctpEncoder.empty.addUleb128 (u : Int)).build = 1 :: ulebBytes u := by
  rw [MsctpEncoder.addUleb128, encodeRawUleb128]
  rw [if_neg (by omega)]
  simp [MsctpEncoder.build, MsctpEncoder.empty]
  decide

theorem addSleb128_empty_build (s : Int) :
    (MsctpEncoder.empty.addSleb128 s).build = 0 :: slebBytes s := by
  simp [MsctpEncoder.addSleb128, MsctpEncoder.build, MsctpEncoder.empty,
    encodeRawSleb128]
  decide

theorem readUleb128_of_encode (v : Nat) (rest : List Nat) :
    MsctpDecoder.readUleb128 ⟨1 :: (ulebBytes v ++ rest), 0⟩ =
      .ok (v, ⟨1 :: (ulebBytes v ++ rest), (ulebBytes v).length + 1⟩) := by
  rw [MsctpDecoder.readUleb128]
  have hb : MsctpDecoder.byteAt ⟨1 :: (ulebBytes v ++ rest), 0⟩ 0 = 1 := rfl
  rw [hb, if_neg (by decide)]
  have hd : (MsctpDecoder.mk (1 :: (ulebBytes v ++ rest)) 0).data.drop (0 + 1) =
      ulebBytes v ++ rest := rfl
  rw [hd, decodeRawUleb128_of_encode]
  simp

theorem readSleb128_of_encode (v : Int) (rest : List Nat) :
    MsctpDecoder.readSleb128 ⟨0 :: (slebBytes v ++ rest), 0⟩ =
      .ok (v, ⟨0 :: (slebBytes v ++ rest), (slebBytes v).length + 1⟩) := by
  rw [MsctpDecoder.readSleb128]
  have hb : MsctpDecoder.byteAt ⟨0 :: (slebBytes v ++ rest), 0⟩ 0 = 0 := rfl
  rw [hb, if_neg (by decide)]
  have hd : (MsctpDecoder.mk (0 :: (slebBytes v ++ rest)) 0).data.drop (0 + 1) =
      slebBytes v ++ rest := rfl
  rw [hd, decodeRawSleb128_of_encode]
  simp

theorem land3_eq_mod (x : Nat) : x &&& 3 = x % 4 := by
  have h := Nat.and_pow_two_sub_one_eq_mod x 2
  norm_num at h
  exact h

theorem small_vector_header_tt (len : Nat) :
    msctp_get_tt (msctp_make_header len MSCTP_TT_SMALL_VECTOR) = 2 := by
  rw [msctp_get_tt, msctp_make_header, MSCTP_TT_SMALL_VECTOR]
  rw [show (2 : Nat) &&& 3 = 2 from rfl, Nat.lor_comm,
    lor_shift_add 2 2 len (by norm_num), land3_eq_mod]
  omega

theorem small_vector_header_modifier (len : Nat) :
    msctp_get_modifier (msctp_make_header len MSCTP_TT_SMALL_VECTOR) = len := by
  rw [msctp_get_modifier, msctp_make_header, MSCTP_TT_SMALL_VECTOR]
  rw [show (2 : Nat) &&& 3 = 2 from rfl, Nat.lor_comm,
    lor_shift_add 2 2 len (by norm_num), Nat.shiftRight_eq_div_pow]
  omega

theorem readVector_of_encode_small (v : List Nat) (rest : List Nat) :
    MsctpDecoder.readVector
        ⟨msctp_make_header v.length MSCTP_TT_SMALL_VECTOR :: (v ++ rest), 0⟩ =
      .ok (v, ⟨msctp_make_header v.length MSCTP_TT_SMALL_VECTOR :: (v ++ rest),
               1 + v.length⟩) := by
  rw [MsctpDecoder.readVector]
  have hb : MsctpDecoder.byteAt
      ⟨msctp_make_header v.length MSCTP_TT_SMALL_VECTOR :: (v ++ rest), 0⟩ 0 =
      msctp_make_header v.length MSCTP_TT_SMALL_VECTOR := rfl
  rw [hb, small_vector_header_tt, small_vector_header_modifier]
  rw [if_pos (show (2 : Nat) = MSCTP_TT_SMALL_VECTOR by decide)]
  rw [if_neg (by
    simp only [List.length_cons, List.length_append]
    omega)]
  simp only [Nat.zero_add, List.drop_succ_cons, List.drop_zero, List.take_left]

theorem readVector_of_encode_large (v : List Nat) (rest : List Nat)
    (h1 : 64 ≤ v.length) (h2 : v.length ≤ 1048576) :
    MsctpDecoder.readVector ⟨3 :: ((ulebBytes v.length ++ v) ++ rest), 0⟩ =
      .ok (v, ⟨3 :: ((ulebBytes v.length ++ v) ++ rest),
               1 + (ulebBytes v.length).length + v.length⟩) := by
  rw [MsctpDecoder.readVector]
  have hb : MsctpDecoder.byteAt
      ⟨3 :: ((ulebBytes v.length ++ v) ++ rest), 0⟩ 0 = 3 := rfl
  rw [hb]
  rw [if_neg (by decide), if_pos (by decide), if_neg (by decide)]
  have hdrop : (MsctpDecoder.mk (3 :: ((ulebBytes v.length ++ v) ++ rest)) 0).data.drop
      (0 + 1) = ulebBytes v.length ++ (v ++ rest) := by
    simp
  rw [hdrop, decodeRawUleb128_of_encode]
  dsimp only
  rw [if_neg (by rw [MSCTP_MAX_LARGE_VECTOR_SIZE]; omega)]
  rw [if_neg (by
    simp only [List.length_cons, List.length_append]
    omega)]
  have hsplit : (3 : Nat) :: ((ulebBytes v.length ++ v) ++ rest) =
      (3 :: ulebBytes v.length) ++ (v ++ rest) := by simp
  simp only [Nat.zero_add, hsplit]
  rw [show 1 + (ulebBytes v.length).length =
    ((3 : Nat) :: ulebBytes v.length).length by simp [Nat.add_comm], List.drop_left,
    List.take_left]

/-- C2: decoding the encoder's output returns the original value, for
unsigned varints (any `u : ℕ`), signed varints (any `s : ℤ`) and vectors
of length up to 2²⁰ bytes; in each case the cursor ends exactly past the
encoded object. -/
theorem tvf_primitive_roundtrip :
    (∀ u : Nat,
      MsctpDecoder.readUleb128 ⟨(MsctpEncoder.empty.addUleb128 (u : Int)).build, 0⟩ =
        .ok (u, ⟨(MsctpEncoder.empty.addUleb128 (u : Int)).build,
                 (MsctpEncoder.empty.addUleb128 (u : Int)).build.length⟩)) ∧
    (∀ s : Int,
      MsctpDecoder.readSleb128 ⟨(MsctpEncoder.empty.addSleb128 s).build, 0⟩ =
        .ok (s, ⟨(MsctpEncoder.empty.addSleb128 s).build,
                 (MsctpEncoder.empty.addSleb128 s).build.length⟩)) ∧
    (∀ v : List Nat, v.length ≤ 1048576 →
      MsctpDecoder.readVector ⟨(MsctpEncoder.empty.addVector (some v)).build, 0⟩ =
        .ok (v, ⟨(MsctpEncoder.empty.addVector (some v)).build,
                 (MsctpEncoder.empty.addVector (some v)).build.length⟩)) := by
  refine ⟨?_, ?_, ?_⟩
  · intro u
    rw [addUleb128_empty_build]
    have := readUleb128_of_encode u []
    rw [List.append_nil] at this
    rw [this]
    simp
  · intro s
    rw [addSleb128_empty_build]
    have := readSleb128_of_encode s []
    rw [List.append_nil] at this
    rw [this]
    simp
  · intro v hv
    rcases Nat.lt_or_ge v.length 64 with hsmall | hlarge
    · have hbuild : (MsctpEncoder.empty.addVector (some v)).build =
          msctp_make_header v.length MSCTP_TT_SMALL_VECTOR :: v := by
        rw [MsctpEncoder.addVector]
        rw [if_pos (by rw [MSCTP_MAX_SMALL_VECTOR_SIZE]; omega)]
        simp [MsctpEncoder.build, MsctpEncoder.empty]
      rw [hbuild]
      have := readVector_of_encode_small v []
      rw [List.append_nil] at this
      rw [this]
      simp
      omega
    · have hbuild : (MsctpEncoder.empty.addVector (some v)).build =
          3 :: (ulebBytes v.length ++ v) := by
        rw [MsctpEncoder.addVector]
        rw [if_neg (by rw [MSCTP_MAX_SMALL_VECTOR_SIZE]; omega),
          if_pos (by rw [MSCTP_MAX_LARGE_VECTOR_SIZE]; omega)]
        simp [MsctpEncoder.build, MsctpEncoder.empty]
        decide
      rw [hbuild]
      have := readVector_of_encode_large v [] hlarge hv
      rw [List.append_nil] at this
      rw [this]
      simp
      omega

/-- Witness for C2 at concrete inputs (u = 300, s = −5, v = [42]). -/
theorem tvf_primitive_roundtrip_witness :
    MsctpDecoder.readVector
        ⟨(MsctpEncoder.empty.addVector (some [42])).build, 0⟩ =
      .ok ([42], ⟨(MsctpEncoder.empty.addVector (some [42])).build,
                  (MsctpEncoder.empty.addVector (some [42])).build.length⟩) :=
  tvf_primitive_roundtrip.2.2 [42] (by norm_num)

/-! ## C4 — overlong LEB128 encodings are rejected -/

theorem leb7Value_ulebBytes (v : Nat) : leb7Value (ulebBytes v) = v := by
  induction v using Nat.strong_induction_on with
  | _ v ih =>
    rcases Nat.lt_or_ge v 128 with hv | hv
    · rw [ulebBytes_small v hv]
      simp only [leb7Value, land127_eq_mod]
      omega
    · rw [ulebBytes_large v hv]
      simp only [leb7Value]
      rw [show ((v &&& 127) ||| 128) &&& 0x7f = v &&& 127 from by
        rw [lor128_land127, Nat.and_assoc, Nat.and_self], land127_eq_mod]
      have hlt : v >>> 7 < v := by
        rw [shiftRight7_eq_div]
        exact Nat.div_lt_self (by omega) (by norm_num)
      rw [ih (v >>> 7) hlt, shiftRight7_eq_div]
      omega

theorem sleb_last_signBit_aux : ∀ (n : Nat) (s : Int), s.natAbs ≤ n →
    (((slebBytes s).getLastD 0 &&& 64 ≠ 0) ↔ s < 0) := by
  intro n
  induction n with
  | zero =>
    intro s hs
    have h0 : s = 0 := by omega
    subst h0
    rw [slebBytes_stop 0 (by norm_num)]
    norm_num
  | succ n ih =>
    intro s hs
    by_cases hstop : (s / 128 = 0 ∧ s % 128 < 64) ∨ (s / 128 = -1 ∧ 64 ≤ s % 128)
    · rw [slebBytes_stop s hstop]
      rw [show ([(s % 128).toNat] : List Nat).getLastD 0 = (s % 128).toNat from rfl]
      rcases hstop with ⟨h1, h2⟩ | ⟨h1, h2⟩
      · have hsb : (s % 128).toNat &&& 64 = 0 := (sleb_signBit_zero_iff s).mpr h2
        simp only [hsb]
        omega
      · have hsb : (s % 128).toNat &&& 64 ≠ 0 := fun h0 => by
          rw [sleb_signBit_zero_iff] at h0; omega
        simp only [ne_eq, hsb, not_false_eq_true, true_iff]
        omega
    · rw [slebBytes_cont s hstop]
      have hlast :
          (((s % 128).toNat ||| 128) :: slebBytes (s / 128)).getLastD 0 =
            (slebBytes (s / 128)).getLastD 0 := by
        rcases hne : slebBytes (s / 128) with _ | ⟨x, xs⟩
        · exact absurd hne (slebBytes_ne_nil _)
        · rfl
      rw [hlast, ih (s / 128) (by omega)]
      omega

theorem sleb_last_signBit (s : Int) :
    ((slebBytes s).getLastD 0 &&& 64 ≠ 0) ↔ s < 0 :=
  sleb_last_signBit_aux s.natAbs s le_rfl

theorem leb7Value_slebBytes_aux : ∀ (n : Nat) (s : Int), s.natAbs ≤ n →
    ((leb7Value (slebBytes s) : Int) =
      s + (if (slebBytes s).getLastD 0 &&& 64 ≠ 0 then
        2 ^ (7 * (slebBytes s).length) else 0)) := by
  intro n
  induction n with
  | zero =>
    intro s hs
    have h0 : s = 0 := by omega
    subst h0
    rw [slebBytes_stop 0 (by norm_num)]
    norm_num [leb7Value]
  | succ n ih =>
    intro s hs
    by_cases hstop : (s / 128 = 0 ∧ s % 128 < 64) ∨ (s / 128 = -1 ∧ 64 ≤ s % 128)
    · rw [slebBytes_stop s hstop]
      rw [show ([(s % 128).toNat] : List Nat).getLastD 0 = (s % 128).toNat from rfl,
        show ([(s % 128).toNat] : List Nat).length = 1 from rfl]
      simp only [leb7Value, land127_eq_mod]
      rcases hstop with ⟨h1, h2⟩ | ⟨h1, h2⟩
      · have hsb : (s % 128).toNat &&& 64 = 0 := (sleb_signBit_zero_iff s).mpr h2
        rw [if_neg (by simp [hsb])]
        omega
      · have hsb : (s % 128).toNat &&& 64 ≠ 0 := fun h0 => by
          rw [sleb_signBit_zero_iff] at h0; omega
        rw [if_pos hsb, show ((2 : Int) ^ (7 * 1)) = 128 by norm_num]
        omega
    · rw [slebBytes_cont s hstop]
      have hlast :
          (((s % 128).toNat ||| 128) :: slebBytes (s / 128)).getLastD 0 =
            (slebBytes (s / 128)).getLastD 0 := by
        rcases hne : slebBytes (s / 128) with _ | ⟨x, xs⟩
        · exact absurd hne (slebBytes_ne_nil _)
        · rfl
      rw [hlast]
      simp only [leb7Value]
      rw [show (((s % 128).toNat ||| 128)) &&& 0x7f = (s % 128).toNat &&& 127 from
        lor128_land127 _, land127_eq_mod]
      have hb : (s % 128).toNat % 128 = (s % 128).toNat := by omega
      rw [hb]
      push_cast
      rw [ih (s / 128) (by omega)]
      simp only [List.length_cons]
      split <;> rename_i hsb
      · have hpow : (2 : Int) ^ (7 * ((slebBytes (s / 128)).length + 1)) =
            128 * 2 ^ (7 * (slebBytes (s / 128)).length) := by
          rw [Nat.mul_add, pow_add]
          push_cast
          ring
        rw [hpow]
        omega
      · omega

theorem leb7Value_slebBytes (s : Int) :
    (leb7Value (slebBytes s) : Int) =
      s + (if (slebBytes s).getLastD 0 &&& 64 ≠ 0 then
        2 ^ (7 * (slebBytes s).length) else 0) :=
  leb7Value_slebBytes_aux s.natAbs s le_rfl

theorem ulebLoop_allCont (l : List Nat) : ∀ (tail : List Nat) (shift acc i : Nat),
    acc < 2 ^ shift →
    ulebDecodeLoop (l.map (· ||| 128) ++ tail) shift acc i =
      ulebDecodeLoop tail (shift + 7 * l.length) (acc + leb7Value l * 2 ^ shift)
        (i + l.length) := by
  induction l with
  | nil =>
    intro tail shift acc i hacc
    simp [leb7Value]
  | cons b l ihl =>
    intro tail shift acc i hacc
    rw [List.map_cons, List.cons_append, ulebDecodeLoop_cons,
      if_neg (by rw [show (0x80 : Nat) = 128 from rfl, lor128_land128]; omega)]
    rw [show (b ||| 128) &&& 0x7f = b &&& 127 from lor128_land127 b]
    have hstep : acc ||| ((b &&& 127) <<< shift) = acc + (b &&& 127) * 2 ^ shift :=
      lor_shift_add shift acc (b &&& 127) hacc
    have hlt : acc + (b &&& 127) * 2 ^ shift < 2 ^ (shift + 7) := by
      have hb : b &&& 127 < 128 := by rw [land127_eq_mod]; omega
      have h1 : (b &&& 127) * 2 ^ shift ≤ 127 * 2 ^ shift :=
        Nat.mul_le_mul_right _ (by omega)
      have h2 : 2 ^ (shift + 7) = 128 * 2 ^ shift := by rw [pow_add]; ring
      omega
    rw [hstep, ihl tail (shift + 7) _ (i + 1) hlt]
    have e1 : shift + 7 + 7 * l.length = shift + 7 * (b :: l).length := by
      simp only [List.length_cons]
      ring
    have e2 : acc + (b &&& 127) * 2 ^ shift + leb7Value l * 2 ^ (shift + 7) =
        acc + leb7Value (b :: l) * 2 ^ shift := by
      simp only [leb7Value]
      have h2 : 2 ^ (shift + 7) = 2 ^ shift * 128 := by rw [pow_add]; ring
      rw [h2]
      ring
    have e3 : i + 1 + l.length = i + (b :: l).length := by
      simp only [List.length_cons]
      omega
    rw [e1, e2, e3]

theorem slebLoop_allCont (l : List Nat) : ∀ (tail : List Nat) (shift acc i : Nat),
    acc < 2 ^ shift →
    slebDecodeLoop (l.map (· ||| 128) ++ tail) shift acc i =
      slebDecodeLoop tail (shift + 7 * l.length) (acc + leb7Value l * 2 ^ shift)
        (i + l.length) := by
  induction l with
  | nil =>
    intro tail shift acc i hacc
    simp [leb7Value]
  | cons b l ihl =>
    intro tail shift acc i hacc
    rw [List.map_cons, List.cons_append, slebDecodeLoop_cons,
      if_neg (by rw [show (0x80 : Nat) = 128 from rfl, lor128_land128]; omega)]
    rw [show (b ||| 128) &&& 0x7f = b &&& 127 from lor128_land127 b]
    have hstep : acc ||| ((b &&& 127) <<< shift) = acc + (b &&& 127) * 2 ^ shift :=
      lor_shift_add shift acc (b &&& 127) hacc
    have hlt : acc + (b &&& 127) * 2 ^ shift < 2 ^ (shift + 7) := by
      have hb : b &&& 127 < 128 := by rw [land127_eq_mod]; omega
      have h1 : (b &&& 127) * 2 ^ shift ≤ 127 * 2 ^ shift :=
        Nat.mul_le_mul_right _ (by omega)
      have h2 : 2 ^ (shift + 7) = 128 * 2 ^ shift := by rw [pow_add]; ring
      omega
    rw [hstep, ihl tail (shift + 7) _ (i + 1) hlt]
    have e1 : shift + 7 + 7 * l.length = shift + 7 * (b :: l).length := by
      simp only [List.length_cons]
      ring
    have e2 : acc + (b &&& 127) * 2 ^ shift + leb7Value l * 2 ^ (shift + 7) =
        acc + leb7Value (b :: l) * 2 ^ shift := by
      simp only [leb7Value]
      have h2 : 2 ^ (shift + 7) = 2 ^ shift * 128 := by rw [pow_add]; ring
      rw [h2]
      ring
    have e3 : i + 1 + l.length = i + (b :: l).length := by
      simp only [List.length_cons]
      omega
    rw [e1, e2, e3]

/-- C4: the decoders reject non-canonical LEB128 encodings with the
overlong error instead of returning the value.  First two parts: the
re-encode-and-compare mechanism itself — whenever the raw loop parses a
value in a byte count different from its canonical encoding's, the
decoder fails with `OVERLONG_LEB128`.  Last two parts: for *every* value,
the padded encoding (each canonical byte given a continuation bit, plus
one semantically empty trailing group) decodes to the same value yet is
rejected as overlong. -/
theorem overlong_leb128_rejected :
    (∀ (data : List Nat) (v i : Nat),
      ulebDecodeLoop data 0 0 0 = .ok (v, i) → i ≠ (ulebBytes v).length →
      decodeRawUleb128 data = .error .overlongLeb128) ∧
    (∀ (data : List Nat) (n s i lastB : Nat),
      slebDecodeLoop data 0 0 0 = .ok (n, s, i, lastB) →
      i ≠ (slebBytes (if lastB &&& 0x40 ≠ 0 then (n : Int) - 2 ^ s else n)).length →
      decodeRawSleb128 data = .error .overlongLeb128) ∧
    (∀ v : Nat,
      decodeRawUleb128 ((ulebBytes v).map (· ||| 128) ++ [0]) =
        .error .overlongLeb128) ∧
    (∀ s : Int,
      decodeRawSleb128 ((slebBytes s).map (· ||| 128) ++
          [if s < 0 then 127 else 0]) =
        .error .overlongLeb128) := by
  refine ⟨?_, ?_, ?_, ?_⟩
  · intro data v i hloop hne
    rw [decodeRawUleb128, hloop]
    dsimp only
    rw [if_neg (by omega)]
  · intro data n s i lastB hloop hne
    rw [decodeRawSleb128, hloop]
    dsimp only
    rw [if_neg (by
      rw [show encodeRawSleb128 (if lastB &&& 0x40 ≠ 0 then (n : Int) - 2 ^ s else n) =
        slebBytes (if lastB &&& 0x40 ≠ 0 then (n : Int) - 2 ^ s else n) from rfl]
      omega)]
  · intro v
    rw [decodeRawUleb128,
      ulebLoop_allCont (ulebBytes v) [0] 0 0 0 (by norm_num)]
    rw [ulebDecodeLoop_cons, if_pos (by decide)]
    simp only [Nat.zero_add, pow_zero, Nat.mul_one,
      show (0 : Nat) &&& 0x7f = 0 from rfl, Nat.zero_shiftLeft, Nat.or_zero,
      leb7Value_ulebBytes]
    rw [if_neg (by omega)]
  · intro s
    rw [decodeRawSleb128,
      slebLoop_allCont (slebBytes s) [if s < 0 then 127 else 0] 0 0 0 (by norm_num)]
    rw [slebDecodeLoop_cons, if_pos (by split <;> decide)]
    have hsb := sleb_last_signBit s
    have hN := leb7Value_slebBytes s
    have hlt : leb7Value (slebBytes s) < 2 ^ (7 * (slebBytes s).length) :=
      leb7Value_lt (slebBytes s)
    rcases Classical.em (s < 0) with hneg | hpos
    · rw [if_pos hneg]
      simp only [Nat.zero_add, pow_zero, Nat.mul_one,
        show (127 : Nat) &&& 0x7f = 127 from rfl]
      rw [lor_shift_add _ _ _ hlt]
      rw [if_pos (show (127 : Nat) &&& 0x40 ≠ 0 by decide)]
      have hval : ((leb7Value (slebBytes s) +
          127 * 2 ^ (7 * (slebBytes s).length) : Nat) : Int) -
            2 ^ (7 * (slebBytes s).length + 7) = s := by
        push_cast
        rw [hN, if_pos (hsb.mpr hneg), pow_add]
        norm_num
        ring
      rw [hval, if_neg (by
        rw [show encodeRawSleb128 s = slebBytes s from rfl]
        omega)]
    · rw [if_neg hpos]
      simp only [Nat.zero_add, pow_zero, Nat.mul_one,
        show (0 : Nat) &&& 0x7f = 0 from rfl, Nat.zero_shiftLeft, Nat.or_zero]
      rw [if_neg (show ¬ ((0 : Nat) &&& 0x40 ≠ 0) by decide)]
      have hval : ((leb7Value (slebBytes s) : Nat) : Int) = s := by
        rw [hN, if_neg (by
          intro hc
          exact hpos (hsb.mp hc))]
        ring
      rw [hval, if_neg (by
        rw [show encodeRawSleb128 s = slebBytes s from rfl]
        omega)]

/-- Witness for C4: the two-byte overlong encoding `[0x80, 0x00]` of the
value 0 is rejected by both raw decoders. -/
theorem overlong_leb128_rejected_witness :
    decodeRawUleb128 [128, 0] = .error .overlongLeb128 ∧
    decodeRawSleb128 [128, 0] = .error .overlongLeb128 :=
  ⟨overlong_leb128_rejected.1 [128, 0] 0 2 rfl
      (by rw [ulebBytes_small 0 (by norm_num)]; decide),
   overlong_leb128_rejected.2.1 [128, 0] 0 14 2 0 rfl
      (by
        rw [if_neg (by decide)]
        rw [show ((0 : Nat) : Int) = (0 : Int) from rfl]
        rw [slebBytes_stop 0 (by norm_num)]
        decide)⟩

/-! ## C5 — `createTransaction`'s `prevTxHash` handling -/

/-- C5: the `prevTxHash` option of `createTransaction`.  (1) The domain
separator is exactly the 10 ASCII bytes of `"TX-LINK-V1"` followed by 22
zero bytes.  (2) A non-`Uint8Array` value fails.  (3) A `Uint8Array` of
any length other than 32 fails.  (4) A 32-byte all-zero value degrades
to signing the base hash with no `linkId`.  (5) Otherwise the message to
sign is `BLAKE3(DOMAIN_TX_LINK_V1 ‖ prevTxHash ‖ baseHash)` and its hex
becomes `linkId`. -/
theorem createTransaction_prevTxHash_handling :
    (DOMAIN_TX_LINK_V1 = "TX-LINK-V1".data.map Char.toNat ++ List.replicate 22 0) ∧
    (∀ (blake3 : List Nat → List Nat) (txHash : List Nat),
      selectMessageToSign blake3 txHash (some .nonBytes) = .error .badPrevTxHash) ∧
    (∀ (blake3 : List Nat → List Nat) (txHash p : List Nat), p.length ≠ 32 →
      selectMessageToSign blake3 txHash (some (.bytes p)) = .error .badPrevTxHash) ∧
    (∀ (blake3 : List Nat → List Nat) (txHash p : List Nat),
      p.length = 32 → isAllZero p = true →
      selectMessageToSign blake3 txHash (some (.bytes p)) = .ok (txHash, none)) ∧
    (∀ (blake3 : List Nat → List Nat) (txHash p : List Nat),
      txHash.length = 32 → p.length = 32 → isAllZero p = false →
      selectMessageToSign blake3 txHash (some (.bytes p)) =
        .ok (blake3 (DOMAIN_TX_LINK_V1 ++ p ++ txHash),
             some (toHexString (blake3 (DOMAIN_TX_LINK_V1 ++ p ++ txHash))))) := by
  refine ⟨by decide, fun blake3 txHash => rfl, ?_, ?_, ?_⟩
  · intro blake3 txHash p hp
    rw [selectMessageToSign, if_pos hp]
  · intro blake3 txHash p hp hz
    rw [selectMessageToSign, if_neg (by omega), if_neg (by simp [hz])]
  · intro blake3 txHash p ht hp hz
    rw [selectMessageToSign, if_neg (by omega), if_pos (by simp [hz]),
      computeTxLinkHash, if_neg (by omega), if_neg (by omega)]

/-- Witness for C5 at concrete inputs: a 32-byte all-ones previous hash
chains, the all-zero one degrades, and a short one fails. -/
theorem createTransaction_prevTxHash_handling_witness :
    selectMessageToSign (fun l => l.take 32) (List.replicate 32 2)
        (some (.bytes (List.replicate 32 1))) =
      .ok ((fun l => l.take 32)
             (DOMAIN_TX_LINK_V1 ++ List.replicate 32 1 ++ List.replicate 32 2),
           some (toHexString ((fun l => l.take 32)
             (DOMAIN_TX_LINK_V1 ++ List.replicate 32 1 ++ List.replicate 32 2)))) ∧
    selectMessageToSign (fun l => l.take 32) (List.replicate 32 2)
        (some (.bytes (List.replicate 32 0))) =
      .ok (List.replicate 32 2, none) ∧
    selectMessageToSign (fun l => l.take 32) (List.replicate 32 2)
        (some (.bytes [5])) = .error .badPrevTxHash :=
  ⟨createTransaction_prevTxHash_handling.2.2.2.2 _ _ _
      (by rw [List.length_replicate]) (by rw [List.length_replicate]) (by decide),
   createTransaction_prevTxHash_handling.2.2.2.1 _ _ _
      (by rw [List.length_replicate]) (by decide),
   createTransaction_prevTxHash_handling.2.2.1 _ _ _ (by decide)⟩

/-! ## C8 — `encodeInstructions` key validation and `INLINE` injection -/

/-- C8: instruction validation in the MSCTP `encodeInstructions`.
(1) An instruction with more than one operational key (ignoring
`comment`) fails as ambiguous.  (2) A single operational key outside
`{vector, uleb, uleb128, sleb, sleb128, INLINE}` fails as unsupported.
(3) An `INLINE` value that is not a `Uint8Array` fails.  (4) A
`Uint8Array` `INLINE` value is injected verbatim: the encoded output is
exactly those bytes, with no framing header. -/
theorem encodeInstructions_key_validation :
    (∀ (instr : Instruction) (rest : List Instruction),
      1 < ((instr.map Prod.fst).filter (· ≠ "comment")).length →
      encodeInstructions (instr :: rest) = .error .ambiguousInstruction) ∧
    (∀ (instr : Instruction) (rest : List Instruction) (key : String),
      (instr.map Prod.fst).filter (· ≠ "comment") = [key] →
      key ∉ ["vector", "uleb", "uleb128", "sleb", "sleb128", "INLINE"] →
      encodeInstructions (instr :: rest) = .error .unsupportedInstruction) ∧
    (∀ (v : JsVal) (rest : List Instruction), (∀ b, v ≠ .bytes b) →
      encodeInstructions ([("INLINE", v)] :: rest) = .error .invalidInlineType) ∧
    (∀ b : List Nat, encodeInstructions [[("INLINE", .bytes b)]] = .ok b) := by
  refine ⟨?_, ?_, ?_, ?_⟩
  · intro instr rest h
    rw [encodeInstructions, encodeInstructionsGo, if_pos (by omega)]
  · intro instr rest key hkeys hkey
    simp only [List.mem_cons, List.mem_singleton, not_or] at hkey
    obtain ⟨h1, h2, h3, h4, h5, h6, _⟩ := hkey
    rw [encodeInstructions, encodeInstructionsGo, hkeys]
    rw [if_neg (by simp)]
    simp only [List.headD_cons]
    rw [if_neg h1, if_neg (by simp [h2, h3]), if_neg (by simp [h4, h5]),
      if_neg h6]
  · intro v rest hv
    have hkeys : ((([("INLINE", v)] : Instruction).map Prod.fst).filter
        (· ≠ "comment")) = ["INLINE"] := rfl
    rw [encodeInstructions, encodeInstructionsGo, hkeys]
    rw [if_neg (by norm_num)]
    simp only [List.headD_cons]
    rw [if_neg (by decide), if_neg (by decide), if_neg (by decide),
      if_pos trivial]
    have hfind : (([("INLINE", v)] : Instruction).find?
        (fun kv => kv.1 = "INLINE")) = some ("INLINE", v) := by
      simp [List.find?]
    simp only [hfind, Option.map_some, Option.getD_some]
    match v, hv with
    | .str s, _ => rfl
    | .num n, _ => rfl
    | .other, _ => rfl
    | .bytes b, hv => exact absurd rfl (hv b)
  · intro b
    have hkeys : ((([("INLINE", JsVal.bytes b)] : Instruction).map Prod.fst).filter
        (· ≠ "comment")) = ["INLINE"] := rfl
    rw [encodeInstructions, encodeInstructionsGo, hkeys]
    rw [if_neg (by norm_num)]
    simp only [List.headD_cons]
    rw [if_neg (by decide), if_neg (by decide), if_neg (by decide),
      if_pos trivial]
    have hfind : (([("INLINE", JsVal.bytes b)] : Instruction).find?
        (fun kv => kv.1 = "INLINE")) = some ("INLINE", JsVal.bytes b) := by
      simp [List.find?]
    simp only [hfind, Option.map_some, Option.getD_some]
    show (match encodeInstructionsGo ⟨MsctpEncoder.empty.chunks ++ [b]⟩ [] with
      | Except.error e => Except.error e
      | Except.ok enc => Except.ok enc.build) = Except.ok b
    simp [encodeInstructionsGo, MsctpEncoder.empty, MsctpEncoder.build]

/-- Witness for C8 at concrete instructions. -/
theorem encodeInstructions_key_validation_witness :
    encodeInstructions [[("uleb", .num 1), ("sleb", .num 2)]] =
      .error .ambiguousInstruction ∧
    encodeInstructions [[("uint64", .str "500")]] =
      .error .unsupportedInstruction ∧
    encodeInstructions [[("INLINE", .str "$pubset(alice)")]] =
      .error .invalidInlineType :=
  ⟨encodeInstructions_key_validation.1 _ [] (by decide),
   encodeInstructions_key_validation.2.1 _ [] "uint64" (by decide) (by decide),
   encodeInstructions_key_validation.2.2.1 (.str "$pubset(alice)") []
     (fun b h => by cases h)⟩

/-! ## Cursor evaluation lemmas at arbitrary offsets

These express each decoder read in terms of the bytes remaining past the
cursor (`data.drop off`), which is how the concrete transaction buffers
of the following sections are evaluated. -/

theorem byteAt_of_drop (data rest : List Nat) (off b : Nat)
    (h : data.drop off = b :: rest) :
    MsctpDecoder.byteAt ⟨data, off⟩ off = b := by
  show (data.get? off).getD 0 = b
  have h0 : data.get? off = (data.drop off).get? 0 := by
    rw [List.get?_drop, Nat.add_zero]
  rw [h0, h]
  rfl

theorem hasNext_of_drop (data rest : List Nat) (off b : Nat)
    (h : data.drop off = b :: rest) :
    MsctpDecoder.hasNext ⟨data, off⟩ = true := by
  show decide (off < data.length) = true
  have := congrArg List.length h
  rw [List.length_drop] at this
  simp only [List.length_cons] at this
  simp
  omega

theorem hasNext_end_of_drop (data : List Nat) (off : Nat)
    (h : data.drop off = []) :
    MsctpDecoder.hasNext ⟨data, off⟩ = false := by
  show decide (off < data.length) = false
  have := List.drop_eq_nil_iff_le.mp h
  simp
  omega

theorem peekType_of_drop (data rest : List Nat) (off b : Nat)
    (h : data.drop off = b :: rest) :
    MsctpDecoder.peekType ⟨data, off⟩ = some (msctp_get_tt b) := by
  rw [MsctpDecoder.peekType, if_pos (by rw [hasNext_of_drop data rest off b h])]
  rw [show (MsctpDecoder.mk data off).offset = off from rfl,
    byteAt_of_drop data rest off b h]

theorem readUleb128_at (data rest : List Nat) (off v : Nat)
    (h : data.drop off = 1 :: (ulebBytes v ++ rest)) :
    MsctpDecoder.readUleb128 ⟨data, off⟩ =
      .ok (v, ⟨data, off + (ulebBytes v).length + 1⟩) := by
  rw [MsctpDecoder.readUleb128]
  rw [show (MsctpDecoder.mk data off).offset = off from rfl,
    byteAt_of_drop data _ off 1 h]
  rw [if_neg (by decide)]
  have hd : (MsctpDecoder.mk data off).data.drop (off + 1) =
      ulebBytes v ++ rest := by
    show data.drop (off + 1) = ulebBytes v ++ rest
    have : data.drop (off + 1) = (data.drop off).drop 1 := by
      rw [List.drop_drop]
    rw [this, h]
    rfl
  rw [hd, decodeRawUleb128_of_encode]

theorem readVector_small_at (data rest : List Nat) (off : Nat) (v : List Nat)
    (h : data.drop off =
      msctp_make_header v.length MSCTP_TT_SMALL_VECTOR :: (v ++ rest)) :
    MsctpDecoder.readVector ⟨data, off⟩ =
      .ok (v, ⟨data, off + (1 + v.length)⟩) := by
  rw [MsctpDecoder.readVector]
  rw [show (MsctpDecoder.mk data off).offset = off from rfl,
    byteAt_of_drop data _ off _ h]
  rw [small_vector_header_tt, small_vector_header_modifier]
  rw [if_pos (show (2 : Nat) = MSCTP_TT_SMALL_VECTOR by decide)]
  have hlen : data.length - off = 1 + (v.length + rest.length) := by
    have := congrArg List.length h
    rw [List.length_drop] at this
    simp only [List.length_cons, List.length_append] at this
    omega
  have hoff : off < data.length := by omega
  rw [if_neg (by
    show ¬ (data.length < off + (1 + v.length))
    omega)]
  have hd : (MsctpDecoder.mk data off).data.drop (off + 1) = v ++ rest := by
    show data.drop (off + 1) = v ++ rest
    have : data.drop (off + 1) = (data.drop off).drop 1 := by
      rw [List.drop_drop]
    rw [this, h]
    rfl
  rw [hd, List.take_left]

theorem readVector_large_at (data rest : List Nat) (off : Nat) (v : List Nat)
    (hsize : v.length ≤ 1048576)
    (h : data.drop off = 3 :: (ulebBytes v.length ++ (v ++ rest))) :
    MsctpDecoder.readVector ⟨data, off⟩ =
      .ok (v, ⟨data, off + (1 + (ulebBytes v.length).length + v.length)⟩) := by
  rw [MsctpDecoder.readVector]
  rw [show (MsctpDecoder.mk data off).offset = off from rfl,
    byteAt_of_drop data _ off 3 h]
  rw [if_neg (by decide), if_pos (by decide), if_neg (by decide)]
  have hd : (MsctpDecoder.mk data off).data.drop (off + 1) =
      ulebBytes v.length ++ (v ++ rest) := by
    show data.drop (off + 1) = ulebBytes v.length ++ (v ++ rest)
    have : data.drop (off + 1) = (data.drop off).drop 1 := by
      rw [List.drop_drop]
    rw [this, h]
    rfl
  rw [hd, decodeRawUleb128_of_encode]
  dsimp only
  rw [if_neg (by rw [MSCTP_MAX_LARGE_VECTOR_SIZE]; omega)]
  have hlen : data.length - off =
      1 + ((ulebBytes v.length).length + (v.length + rest.length)) := by
    have := congrArg List.length h
    rw [List.length_drop] at this
    simp only [List.length_cons, List.length_append] at this
    omega
  have hoff : off < data.length := by omega
  rw [if_neg (by
    show ¬ (data.length < off + (1 + (ulebBytes v.length).length + v.length))
    omega)]
  have hd2 : (MsctpDecoder.mk data off).data.drop
      (off + (1 + (ulebBytes v.length).length)) = v ++ rest := by
    show data.drop (off + (1 + (ulebBytes v.length).length)) = v ++ rest
    have e1 : data.drop (off + (1 + (ulebBytes v.length).length)) =
        (data.drop off).drop (1 + (ulebBytes v.length).length) := by
      rw [List.drop_drop]
    rw [e1, h, show (1 + (ulebBytes v.length).length) =
      ((3 : Nat) :: ulebBytes v.length).length by simp [Nat.add_comm]]
    rw [show (3 : Nat) :: (ulebBytes v.length ++ (v ++ rest)) =
      ((3 : Nat) :: ulebBytes v.length) ++ (v ++ rest) from rfl]
    rw [List.drop_left]
  rw [hd2, List.take_left]

theorem invocationsLoop_end (fuel : Nat) (d : MsctpDecoder)
    (acc : List (Nat × List DecodedInstr)) (hf : 0 < fuel)
    (h : d.hasNext = false) :
    invocationsLoop fuel d acc = .ok (acc, d) := by
  cases fuel with
  | zero => omega
  | succ n =>
    rw [invocationsLoop]
    rw [if_pos (by rw [h]; decide)]

theorem invocationsLoop_nonUleb (fuel : Nat) (d : MsctpDecoder)
    (acc : List (Nat × List DecodedInstr)) (hf : 0 < fuel)
    (h1 : d.hasNext = true) (h2 : d.peekType ≠ some MSCTP_TT_ULEB128) :
    invocationsLoop fuel d acc = .ok (acc, d) := by
  cases fuel with
  | zero => omega
  | succ n =>
    rw [invocationsLoop]
    rw [if_neg (by rw [h1]; decide), if_pos h2]

theorem invocationsLoop_step (fuel : Nat) (d : MsctpDecoder)
    (acc : List (Nat × List DecodedInstr)) (hf : 0 < fuel)
    (h1 : d.hasNext = true) (h2 : d.peekType = some MSCTP_TT_ULEB128) :
    invocationsLoop fuel d acc =
      (match d.readUleb128 with
       | .error e => .error (.msctp e)
       | .ok (targetIndexBig, d') =>
         match d'.readVector with
         | .error e => .error (.msctp e)
         | .ok (instructionsVector, d'') =>
           match toSafeIndex targetIndexBig with
           | .error e => .error e
           | .ok targetIndex =>
             match decodeInstructions instructionsVector with
             | .error e => .error e
             | .ok instrs =>
               invocationsLoop (fuel - 1) d'' (acc ++ [(targetIndex, instrs)])) := by
  cases fuel with
  | zero => omega
  | succ n =>
    rw [invocationsLoop]
    rw [if_neg (by rw [h1]; decide), if_neg (by rw [h2]; decide)]
    rfl

theorem signaturesLoop_end (fuel : Nat) (d : MsctpDecoder)
    (acc : List (List Nat × List Nat)) (hf : 0 < fuel)
    (h : d.hasNext = false) :
    signaturesLoop fuel d acc = .ok acc := by
  cases fuel with
  | zero => omega
  | succ n =>
    rw [signaturesLoop]
    rw [if_pos (by rw [h]; decide)]

theorem signaturesLoop_step (fuel : Nat) (d : MsctpDecoder)
    (acc : List (List Nat × List Nat)) (hf : 0 < fuel)
    (h1 : d.hasNext = true)
    (h2 : d.peekType = some MSCTP_TT_SMALL_VECTOR ∨
          d.peekType = some MSCTP_TT_LARGE_VECTOR) :
    signaturesLoop fuel d acc =
      (match d.readVector with
       | .error e => .error (.msctp e)
       | .ok (ed25519, d') =>
         if ¬ d'.hasNext then .error .unpairedSignature
         else
           match d'.readVector with
           | .error e => .error (.msctp e)
           | .ok (falcon512, d'') =>
             signaturesLoop (fuel - 1) d'' (acc ++ [(ed25519, falcon512)])) := by
  cases fuel with
  | zero => omega
  | succ n =>
    rw [signaturesLoop]
    rw [if_neg (by rw [h1]; decide)]
    rw [if_neg (by
      rcases h2 with h2 | h2 <;> rw [h2] <;> decide)]
    rfl

theorem decodeTransaction_eq (txBytes : List Nat) :
    decodeTransaction txBytes =
      (if txBytes.length < 32 then .error .tooShort
      else
        match MsctpDecoder.readUleb128 ⟨txBytes.drop 32, 0⟩ with
        | .error e => .error (.msctp e)
        | .ok (version, d1) =>
          match d1.readUleb128 with
          | .error e => .error (.msctp e)
          | .ok (sequence, d2) =>
            match d2.readVector with
            | .error e => .error (.msctp e)
            | .ok (addressBytes, d3) =>
              if addressBytes.length % 32 ≠ 0 then
                .error .addressesNotMultipleOf32
              else
                match d3.readUleb128 with
                | .error e => .error (.msctp e)
                | .ok (gasLimit, d4) =>
                  match d4.readUleb128 with
                  | .error e => .error (.msctp e)
                  | .ok (gasPrice, d5) =>
                    match invocationsLoop ((txBytes.drop 32).length + 1) d5 []
                        with
                    | .error e => .error e
                    | .ok (invocations, d6) =>
                      match signaturesLoop ((txBytes.drop 32).length + 1) d6 []
                          with
                      | .error e => .error e
                      | .ok signatures =>
                        .ok { pod := txBytes.take 32, version := version,
                              sequence := sequence, gasLimit := gasLimit,
                              gasPrice := gasPrice,
                              addresses := splitAddresses addressBytes,
                              invocations := invocations,
                              signatures := signatures }) := by
  rw [decodeTransaction]

/-- Composition lemma: `decodeTransaction` succeeds when every stage of the
decoder pipeline succeeds. All arguments are symbolic, so instantiating it
never forces large definitional reductions. -/
theorem decodeTransaction_ok (txBytes payload pod addressBytes : List Nat)
    (version sequence gasLimit gasPrice : Nat)
    (d1 d2 d3 d4 d5 d6 : MsctpDecoder)
    (invocations : List (Nat × List DecodedInstr))
    (signatures : List (List Nat × List Nat))
    (hlen : ¬ txBytes.length < 32)
    (hpay : txBytes.drop 32 = payload)
    (hpod : txBytes.take 32 = pod)
    (h1 : MsctpDecoder.readUleb128 ⟨payload, 0⟩ = .ok (version, d1))
    (h2 : d1.readUleb128 = .ok (sequence, d2))
    (h3 : d2.readVector = .ok (addressBytes, d3))
    (hmod : ¬ addressBytes.length % 32 ≠ 0)
    (h4 : d3.readUleb128 = .ok (gasLimit, d4))
    (h5 : d4.readUleb128 = .ok (gasPrice, d5))
    (h6 : invocationsLoop (payload.length + 1) d5 [] = .ok (invocations, d6))
    (h7 : signaturesLoop (payload.length + 1) d6 [] = .ok signatures) :
    decodeTransaction txBytes =
      .ok { pod := pod, version := version, sequence := sequence,
            gasLimit := gasLimit, gasPrice := gasPrice,
            addresses := splitAddresses addressBytes,
            invocations := invocations, signatures := signatures } := by
  rw [decodeTransaction_eq, if_neg hlen, hpay, hpod]
  rw [h1]
  dsimp only
  rw [h2]
  dsimp only
  rw [h3]
  dsimp only
  rw [if_neg hmod]
  rw [h4]
  dsimp only
  rw [h5]
  dsimp only
  rw [h6]
  dsimp only
  rw [h7]

/-! ## C6 — the decoder does not validate the version field -/

/-- C6 (the code violates the claim): a 41-byte transaction whose
version field decodes to 2 is accepted by `decodeTransaction` and
returned as a structure with `version = 2`; no error is raised even
though 2 ≠ 1. -/
theorem decodeTransaction_accepts_version_two :
    decodeTransaction (List.replicate 32 0 ++ [1, 2, 1, 0, 2, 1, 0, 1, 0]) =
      .ok { pod := List.replicate 32 0, version := 2, sequence := 0,
            gasLimit := 0, gasPrice := 0, addresses := [], invocations := [],
            signatures := [] } ∧
    (2 : Nat) ≠ 1 := by
  refine ⟨?_, by decide⟩
  have hu2 : ulebBytes 2 = [2] := ulebBytes_small 2 (by norm_num)
  have hu0 : ulebBytes 0 = [0] := ulebBytes_small 0 (by norm_num)
  rw [decodeTransaction]
  rw [if_neg (by simp)]
  rw [List.take_left' (by simp), List.drop_left' (by simp)]
  dsimp only
  rw [readUleb128_at _ [1, 0, 2, 1, 0, 1, 0] 0 2 (by rw [List.drop_zero, hu2]; rfl)]
  dsimp only
  rw [show (0 + (ulebBytes 2).length + 1 : Nat) = 2 by rw [hu2]; rfl]
  rw [readUleb128_at _ [2, 1, 0, 1, 0] 2 0 (by rw [hu0]; rfl)]
  dsimp only
  rw [show (2 + (ulebBytes 0).length + 1 : Nat) = 4 by rw [hu0]; rfl]
  rw [readVector_small_at _ [1, 0, 1, 0] 4 [] (by decide)]
  dsimp only
  rw [if_neg (by decide)]
  rw [show splitAddresses [] = [] by rw [splitAddresses]; simp]
  rw [show (4 + (1 + ([] : List Nat).length) : Nat) = 5 by rfl]
  rw [readUleb128_at _ [1, 0] 5 0 (by rw [hu0]; rfl)]
  dsimp only
  rw [show (5 + (ulebBytes 0).length + 1 : Nat) = 7 by rw [hu0]; rfl]
  rw [readUleb128_at _ [] 7 0 (by rw [hu0]; rfl)]
  dsimp only
  rw [show (7 + (ulebBytes 0).length + 1 : Nat) = 9 by rw [hu0]; rfl]
  rw [invocationsLoop_end _ _ _ (by omega)
    (hasNext_end_of_drop _ 9 (by decide))]
  dsimp only
  rw [signaturesLoop_end _ _ _ (by omega)
    (hasNext_end_of_drop _ 9 (by decide))]

/-! ## C7 — the decoder does not validate invocation target indices -/

/-- C7 (the code violates the claim): a transaction with an *empty*
address table and one invocation whose target index decodes to 5 is
accepted by `decodeTransaction`; the returned structure has
`addresses = []` (address count 0) and an invocation with
`targetIndex = 5 ≥ 0`, and no index-out-of-range error is raised. -/
theorem decodeTransaction_accepts_out_of_range_target :
    decodeTransaction
        (List.replicate 32 0 ++ [1, 1, 1, 0, 2, 1, 0, 1, 0, 1, 5, 2]) =
      .ok { pod := List.replicate 32 0, version := 1, sequence := 0,
            gasLimit := 0, gasPrice := 0, addresses := [],
            invocations := [(5, [])], signatures := [] } ∧
    ¬ ((5 : Nat) < ([] : List (List Nat)).length) := by
  refine ⟨?_, by decide⟩
  have hu1 : ulebBytes 1 = [1] := ulebBytes_small 1 (by norm_num)
  have hu0 : ulebBytes 0 = [0] := ulebBytes_small 0 (by norm_num)
  have hu5 : ulebBytes 5 = [5] := ulebBytes_small 5 (by norm_num)
  rw [decodeTransaction]
  rw [if_neg (by simp)]
  rw [List.take_left' (by simp), List.drop_left' (by simp)]
  dsimp only
  rw [readUleb128_at _ [1, 0, 2, 1, 0, 1, 0, 1, 5, 2] 0 1
    (by rw [List.drop_zero, hu1]; rfl)]
  dsimp only
  rw [show (0 + (ulebBytes 1).length + 1 : Nat) = 2 by rw [hu1]; rfl]
  rw [readUleb128_at _ [2, 1, 0, 1, 0, 1, 5, 2] 2 0 (by rw [hu0]; rfl)]
  dsimp only
  rw [show (2 + (ulebBytes 0).length + 1 : Nat) = 4 by rw [hu0]; rfl]
  rw [readVector_small_at _ [1, 0, 1, 0, 1, 5, 2] 4 [] (by decide)]
  dsimp only
  rw [if_neg (by decide)]
  rw [show splitAddresses [] = [] by rw [splitAddresses]; simp]
  rw [show (4 + (1 + ([] : List Nat).length) : Nat) = 5 by rfl]
  rw [readUleb128_at _ [1, 0, 1, 5, 2] 5 0 (by rw [hu0]; rfl)]
  dsimp only
  rw [show (5 + (ulebBytes 0).length + 1 : Nat) = 7 by rw [hu0]; rfl]
  rw [readUleb128_at _ [1, 5, 2] 7 0 (by rw [hu0]; rfl)]
  dsimp only
  rw [show (7 + (ulebBytes 0).length + 1 : Nat) = 9 by rw [hu0]; rfl]
  rw [invocationsLoop_step _ _ _ (by norm_num)
    (hasNext_of_drop _ [5, 2] 9 1 (by decide))
    (by rw [peekType_of_drop _ [5, 2] 9 1 (by decide)]; rfl)]
  rw [readUleb128_at _ [2] 9 5 (by rw [hu5]; rfl)]
  dsimp only
  rw [show (9 + (ulebBytes 5).length + 1 : Nat) = 11 by rw [hu5]; rfl]
  rw [readVector_small_at _ [] 11 [] (by decide)]
  dsimp only
  rw [show toSafeIndex 5 = Except.ok 5 from rfl]
  dsimp only
  rw [show decodeInstructions [] = Except.ok [] from rfl]
  dsimp only
  rw [show (11 + (1 + ([] : List Nat).length) : Nat) = 12 by rfl]
  rw [invocationsLoop_end _ _ _ (by norm_num)
    (hasNext_end_of_drop _ 12 (by decide))]
  dsimp only
  rw [signaturesLoop_end _ _ _ (by norm_num)
    (hasNext_end_of_drop _ 12 (by decide))]
  rfl

/-! ## C9 — the decoder enforces no total-size budget -/

theorem ulebBytes_1048576 : ulebBytes 1048576 = [128, 128, 64] := by
  have e1 : (1048576 : Nat) >>> 7 = 8192 := by rw [shiftRight7_eq_div]
  have e2 : (8192 : Nat) >>> 7 = 64 := by rw [shiftRight7_eq_div]
  rw [ulebBytes_large 1048576 (by norm_num), e1,
    ulebBytes_large 8192 (by norm_num), e2,
    ulebBytes_small 64 (by norm_num)]
  decide

/-- C9 (the code violates the claim): a transaction buffer of
1 048 622 bytes — more than 1 MiB — whose single signature pair carries
a 1 MiB Falcon component is decoded successfully; `decodeTransaction`
returns a structure instead of a size-budget error. -/
theorem decodeTransaction_accepts_oversized :
    (List.replicate 32 0 ++
        ([1, 1, 1, 0, 2, 1, 0, 1, 0, 2, 3, 128, 128, 64] ++
          List.replicate 1048576 0)).length > 1048576 ∧
    decodeTransaction
        (List.replicate 32 0 ++
          ([1, 1, 1, 0, 2, 1, 0, 1, 0, 2, 3, 128, 128, 64] ++
            List.replicate 1048576 0)) =
      .ok { pod := List.replicate 32 0, version := 1, sequence := 0,
            gasLimit := 0, gasPrice := 0, addresses := [], invocations := [],
            signatures := [([], List.replicate 1048576 0)] } := by
  have hlen14 : ([1, 1, 1, 0, 2, 1, 0, 1, 0, 2, 3, 128, 128, 64] :
      List Nat).length = 14 := rfl
  constructor
  · rw [List.length_append, List.length_append, List.length_replicate,
      List.length_replicate, hlen14]
    omega
  generalize hR : List.replicate 1048576 (0 : Nat) = R
  have hRlen : R.length = 1048576 := by rw [← hR, List.length_replicate]
  have hu1 : ulebBytes 1 = [1] := ulebBytes_small 1 (by norm_num)
  have hu0 : ulebBytes 0 = [0] := ulebBytes_small 0 (by norm_num)
  generalize hP :
    ([1, 1, 1, 0, 2, 1, 0, 1, 0, 2, 3, 128, 128, 64] : List Nat) ++ R = P
  have hPlen : P.length = 1048590 := by
    rw [← hP, List.length_append, hlen14, hRlen]
  have hd0 : P.drop 0 = 1 :: (ulebBytes 1 ++
      (([1, 0, 2, 1, 0, 1, 0, 2, 3, 128, 128, 64] : List Nat) ++ R)) := by
    rw [hu1, ← hP]; rfl
  have hd2 : P.drop 2 = 1 :: (ulebBytes 0 ++
      (([2, 1, 0, 1, 0, 2, 3, 128, 128, 64] : List Nat) ++ R)) := by
    rw [hu0, ← hP]; rfl
  have hd4 : P.drop 4 =
      msctp_make_header ([] : List Nat).length MSCTP_TT_SMALL_VECTOR ::
        (([] : List Nat) ++ (([1, 0, 1, 0, 2, 3, 128, 128, 64] : List Nat) ++ R)) := by
    rw [← hP]; rfl
  have hd5 : P.drop 5 = 1 :: (ulebBytes 0 ++
      (([1, 0, 2, 3, 128, 128, 64] : List Nat) ++ R)) := by
    rw [hu0, ← hP]; rfl
  have hd7 : P.drop 7 = 1 :: (ulebBytes 0 ++
      (([2, 3, 128, 128, 64] : List Nat) ++ R)) := by
    rw [hu0, ← hP]; rfl
  have hd9 : P.drop 9 =
      msctp_make_header ([] : List Nat).length MSCTP_TT_SMALL_VECTOR ::
        (([] : List Nat) ++ (([3, 128, 128, 64] : List Nat) ++ R)) := by
    rw [← hP]; rfl
  have hd9b : P.drop 9 = 2 :: (([3, 128, 128, 64] : List Nat) ++ R) := by
    rw [← hP]; rfl
  have hd10 : P.drop 10 = 3 :: (([128, 128, 64] : List Nat) ++ R) := by
    rw [← hP]; rfl
  have hd10v : P.drop 10 = 3 :: (ulebBytes R.length ++ (R ++ [])) := by
    rw [hRlen, ulebBytes_1048576, List.append_nil, ← hP]; rfl
  have hdend : P.drop 1048590 = [] := by
    rw [List.drop_eq_nil_iff_le, hPlen]
  have hnext9 : MsctpDecoder.hasNext ⟨P, 9⟩ = true :=
    hasNext_of_drop _ _ 9 2 hd9b
  have hpeek9 : MsctpDecoder.peekType ⟨P, 9⟩ = some (msctp_get_tt 2) :=
    peekType_of_drop _ _ 9 2 hd9b
  have h1 : MsctpDecoder.readUleb128 ⟨P, 0⟩ = .ok (1, ⟨P, 2⟩) := by
    rw [readUleb128_at _ _ 0 1 hd0, hu1]; rfl
  have h2 : MsctpDecoder.readUleb128 ⟨P, 2⟩ = .ok (0, ⟨P, 4⟩) := by
    rw [readUleb128_at _ _ 2 0 hd2, hu0]; rfl
  have h3 : MsctpDecoder.readVector ⟨P, 4⟩ = .ok ([], ⟨P, 5⟩) := by
    rw [readVector_small_at _ _ 4 [] hd4]; rfl
  have h4 : MsctpDecoder.readUleb128 ⟨P, 5⟩ = .ok (0, ⟨P, 7⟩) := by
    rw [readUleb128_at _ _ 5 0 hd5, hu0]; rfl
  have h5 : MsctpDecoder.readUleb128 ⟨P, 7⟩ = .ok (0, ⟨P, 9⟩) := by
    rw [readUleb128_at _ _ 7 0 hd7, hu0]; rfl
  have h6 : invocationsLoop (P.length + 1) ⟨P, 9⟩ [] = .ok ([], ⟨P, 9⟩) :=
    invocationsLoop_nonUleb _ _ _ (by rw [hPlen]; omega) hnext9
      (by rw [hpeek9]; decide)
  have hsv9 : MsctpDecoder.readVector ⟨P, 9⟩ = .ok ([], ⟨P, 10⟩) := by
    rw [readVector_small_at _ _ 9 [] hd9]; rfl
  have hnext10 : MsctpDecoder.hasNext ⟨P, 10⟩ = true :=
    hasNext_of_drop _ _ 10 3 hd10
  have hlv10 : MsctpDecoder.readVector ⟨P, 10⟩ = .ok (R, ⟨P, 1048590⟩) := by
    rw [readVector_large_at _ _ 10 R (by rw [hRlen]) hd10v]
    rw [hRlen, ulebBytes_1048576]; rfl
  have hend : MsctpDecoder.hasNext ⟨P, 1048590⟩ = false :=
    hasNext_end_of_drop _ 1048590 hdend
  have h7 : signaturesLoop (P.length + 1) ⟨P, 9⟩ [] = .ok [([], R)] := by
    rw [signaturesLoop_step _ _ _ (by rw [hPlen]; omega) hnext9
      (Or.inl (by rw [hpeek9]; rfl))]
    rw [hsv9]
    dsimp only
    rw [if_neg (by rw [hnext10]; decide), hlv10]
    dsimp only
    rw [signaturesLoop_end _ _ _ (by rw [hPlen]; omega) hend]
    rfl
  rw [decodeTransaction_ok (List.replicate 32 0 ++ P) P (List.replicate 32 0)
    [] 1 0 0 0 ⟨P, 2⟩ ⟨P, 4⟩ ⟨P, 5⟩ ⟨P, 7⟩ ⟨P, 9⟩ ⟨P, 9⟩ [] [([], R)]
    (by rw [List.length_append, List.length_replicate, hPlen]; omega)
    (List.drop_left' (by rw [List.length_replicate]))
    (List.take_left' (by rw [List.length_replicate]))
    h1 h2 h3 (by decide) h4 h5 h6 h7]
  rw [show splitAddresses [] = [] by rw [splitAddresses]; simp]

/-! ## Resolver order bridge: the `compareByteArrays` comparator agrees
with lexicographic byte order on `List Nat` -/

theorem lex_cons_cons_iff (x y : Nat) (xs ys : List Nat) :
    List.Lex (· < ·) (x :: xs) (y :: ys) ↔
      x < y ∨ (x = y ∧ List.Lex (· < ·) xs ys) := by
  constructor
  · intro h
    cases h with
    | rel h => exact Or.inl h
    | cons h => exact Or.inr ⟨rfl, h⟩
  · rintro (h | ⟨rfl, h⟩)
    · exact List.Lex.rel h
    · exact List.Lex.cons h

theorem compareByteArrays_le_zero_iff (a b : List Nat) :
    compareByteArrays a b ≤ 0 ↔ (a = b ∨ List.Lex (· < ·) a b) := by
  induction a generalizing b with
  | nil =>
    cases b with
    | nil => simp [compareByteArrays]
    | cons y ys =>
      simp only [compareByteArrays]
      constructor
      · intro _
        exact Or.inr List.Lex.nil
      · intro _
        omega
  | cons x xs ih =>
    cases b with
    | nil =>
      simp only [compareByteArrays]
      constructor
      · intro h
        exfalso
        simp only [List.length_cons] at h
        omega
      · rintro (h | h)
        · exact absurd h (by simp)
        · cases h
    | cons y ys =>
      by_cases hxy : x = y
      · subst hxy
        rw [show compareByteArrays (x :: xs) (x :: ys) = compareByteArrays xs ys by
          simp [compareByteArrays]]
        rw [ih ys]
        constructor
        · rintro (h | h)
          · exact Or.inl (by rw [h])
          · exact Or.inr (List.Lex.cons h)
        · rintro (h | h)
          · exact Or.inl (by injection h)
          · cases h with
            | rel hr => exact absurd hr (lt_irrefl x)
            | cons hc => exact Or.inr hc
      · rw [show compareByteArrays (x :: xs) (y :: ys) = (x : Int) - y by
          simp [compareByteArrays, hxy]]
        constructor
        · intro h
          have hlt : x < y := by omega
          exact Or.inr (List.Lex.rel hlt)
        · rintro (h | h)
          · injection h with h1 h2
            exact absurd h1 hxy
          · cases h with
            | rel hr => omega
            | cons hc => exact absurd rfl hxy

theorem compareByteArrays_le_iff_le (a b : List Nat) :
    compareByteArrays a b ≤ 0 ↔ a ≤ b := by
  rw [compareByteArrays_le_zero_iff, le_iff_lt_or_eq]
  exact or_comm

theorem sortByteArrays_perm (l : List (List Nat)) : (sortByteArrays l).Perm l :=
  List.mergeSort_perm l _

theorem sortByteArrays_sorted (l : List (List Nat)) :
    (sortByteArrays l).Pairwise (fun a b => a = b ∨ List.Lex (· < ·) a b) := by
  have h := @List.sorted_mergeSort (List Nat)
    (fun a b => decide (compareByteArrays a b ≤ 0))
    (fun a b c hab hbc => by
      rw [decide_eq_true_eq] at hab hbc ⊢
      rw [compareByteArrays_le_iff_le] at hab hbc ⊢
      exact le_trans hab hbc)
    (fun a b => by
      rw [Bool.or_eq_true, decide_eq_true_eq, decide_eq_true_eq,
        compareByteArrays_le_iff_le, compareByteArrays_le_iff_le]
      exact le_total a b)
    l
  refine h.imp ?_
  intro a b hab
  rw [decide_eq_true_eq, compareByteArrays_le_zero_iff] at hab
  exact hab

theorem sortByteArrays_nil : sortByteArrays [] = [] := List.mergeSort_nil

theorem perm_pair_eq {a : List Nat} {l : List (List Nat)} (h : l.Perm [a, a]) :
    l = [a, a] := by
  have hlen := h.length_eq
  cases l with
  | nil => simp at hlen
  | cons x t =>
    cases t with
    | nil => simp at hlen
    | cons y t2 =>
      cases t2 with
      | nil =>
        have hx : x ∈ [a, a] := h.subset (by simp)
        have hy : y ∈ [a, a] := h.subset (by simp)
        simp only [List.mem_cons, List.not_mem_nil, or_false, or_self] at hx hy
        rw [hx, hy]
      | cons z t3 =>
        simp only [List.length_cons, List.length_nil] at hlen
        omega

/-! ## Structured evaluation and inversion of `resolveManifest` -/

theorem createCanonicalAddressList_noSigners_eq (literalAddressSet : List String)
    (fpa : Option String) (decoded : List (List Nat))
    (indexMap : List (String × Nat))
    (h1 : decodeAll literalAddressSet = .ok decoded)
    (h2 : buildIndexMap (sortByteArrays decoded) literalAddressSet =
      .ok indexMap) :
    createCanonicalAddressList literalAddressSet fpa [] =
      .ok (sortByteArrays decoded, indexMap) := by
  rw [createCanonicalAddressList.eq_def]
  rw [if_pos (show ([] : List (String × Signer)).isEmpty = true from rfl)]
  rw [h1]
  dsimp only
  rw [h2]

theorem createCanonicalAddressList_signers_eq (literalAddressSet : List String)
    (fp : String) (signers : List (String × Signer)) (fpSigner : String × Signer)
    (otherDecoded nonSignerDecoded : List (List Nat))
    (indexMap : List (String × Nat))
    (h0 : signers.isEmpty = false)
    (hfind : signers.find? (fun kv => kv.1 = fp) = some fpSigner)
    (h1 : decodeAll (((signers.map (fun kv => kv.2.bech32m)).foldl setInsert
        []).filter (· ≠ fpSigner.2.bech32m)) = .ok otherDecoded)
    (h2 : decodeAll (literalAddressSet.filter
        (· ∉ (signers.map (fun kv => kv.2.bech32m)).foldl setInsert [])) =
      .ok nonSignerDecoded)
    (h3 : buildIndexMap
        (fpSigner.2.raw ::
          (sortByteArrays otherDecoded ++ sortByteArrays nonSignerDecoded))
        (((signers.map (fun kv => kv.2.bech32m)).foldl setInsert []).foldl
          setInsert literalAddressSet) = .ok indexMap) :
    createCanonicalAddressList literalAddressSet (some fp) signers =
      .ok (fpSigner.2.raw ::
          (sortByteArrays otherDecoded ++ sortByteArrays nonSignerDecoded),
        indexMap) := by
  rw [createCanonicalAddressList.eq_def]
  rw [if_neg (by rw [h0]; decide)]
  dsimp only
  rw [hfind]
  dsimp only
  rw [h1]
  dsimp only
  rw [h2]
  dsimp only
  rw [h3]

theorem resolveManifest_none_ok (template : MVal)
    (constants : List (String × String)) (signers : List (String × Signer))
    (finalList : List (List Nat)) (indexMap : List (String × Nat)) (body : MVal)
    (hc : createCanonicalAddressList (collectLits signers constants template [])
        (getFeePayerAlias template) signers = .ok (finalList, indexMap))
    (hr : resolveToIndices signers constants indexMap template = .ok body) :
    resolveManifest ⟨none, template, constants, signers⟩ =
      .ok { addresses := finalList,
            feePayer := if signers.isEmpty then none else some 0,
            body := body } := by
  rw [resolveManifest]
  dsimp only
  rw [if_neg (by rw [List.length_replicate]; decide)]
  rw [hc]
  dsimp only
  rw [hr]

theorem resolveManifest_ok_inv (input : ManifestInput) (rm : ResolvedManifest)
    (h : resolveManifest input = .ok rm) :
    ∃ finalList indexMap body,
      createCanonicalAddressList (collectLits input.signers input.constants
          input.template []) (getFeePayerAlias input.template) input.signers =
        .ok (finalList, indexMap) ∧
      resolveToIndices input.signers input.constants indexMap input.template =
        .ok body ∧
      rm = { addresses := finalList,
             feePayer := if input.signers.isEmpty then none else some 0,
             body := body } := by
  rw [resolveManifest] at h
  cases hip : input.pod with
  | none =>
    rw [hip] at h
    dsimp only at h
    rw [if_neg (by rw [List.length_replicate]; decide)] at h
    cases hcc : createCanonicalAddressList (collectLits input.signers
        input.constants input.template []) (getFeePayerAlias input.template)
        input.signers with
    | error e => rw [hcc] at h; exact absurd h (by simp)
    | ok pr =>
      obtain ⟨finalList, indexMap⟩ := pr
      rw [hcc] at h
      dsimp only at h
      cases hrr : resolveToIndices input.signers input.constants indexMap
          input.template with
      | error e => rw [hrr] at h; exact absurd h (by simp)
      | ok body =>
        rw [hrr] at h
        dsimp only at h
        refine ⟨finalList, indexMap, body, rfl, hrr, ?_⟩
        injection h with h2
        exact h2.symm
  | some p =>
    rw [hip] at h
    dsimp only at h
    cases hpd : decodeAddress p with
    | error e => rw [hpd] at h; exact absurd h (by simp)
    | ok podBytes =>
      rw [hpd] at h
      dsimp only at h
      by_cases hpl : podBytes.length ≠ 32
      · rw [if_pos hpl] at h; exact absurd h (by simp)
      · rw [if_neg hpl] at h
        cases hcc : createCanonicalAddressList (collectLits input.signers
            input.constants input.template []) (getFeePayerAlias input.template)
            input.signers with
        | error e => rw [hcc] at h; exact absurd h (by simp)
        | ok pr =>
          obtain ⟨finalList, indexMap⟩ := pr
          rw [hcc] at h
          dsimp only at h
          cases hrr : resolveToIndices input.signers input.constants indexMap
              input.template with
          | error e => rw [hrr] at h; exact absurd h (by simp)
          | ok body =>
            rw [hrr] at h
            dsimp only at h
            refine ⟨finalList, indexMap, body, rfl, hrr, ?_⟩
            injection h with h2
            exact h2.symm

/-! ## C1 — the canonical address table -/

/-- C1: for a manifest with signers, the address table is the fee payer's
raw address followed by the remaining signers' addresses in lexicographic
byte order and then the decoded non-signer literals (the collected literal
set minus the signer literal strings) in lexicographic byte order; with no
signers it is a lexicographically sorted permutation of the decoded
collected literals. -/
theorem resolveManifest_canonical_address_table (input : ManifestInput)
    (rm : ResolvedManifest) (h : resolveManifest input = .ok rm) :
    (input.signers.isEmpty = true →
      ∃ decoded,
        decodeAll (collectLits input.signers input.constants input.template []) =
          .ok decoded ∧
        rm.addresses.Perm decoded ∧
        rm.addresses.Pairwise (fun a b => a = b ∨ List.Lex (· < ·) a b)) ∧
    (input.signers.isEmpty = false →
      ∃ fp fpSigner otherDecoded nonSignerDecoded otherSorted nonSorted,
        getFeePayerAlias input.template = some fp ∧
        input.signers.find? (fun kv => kv.1 = fp) = some fpSigner ∧
        decodeAll (((input.signers.map (fun kv => kv.2.bech32m)).foldl setInsert
            []).filter (· ≠ fpSigner.2.bech32m)) = .ok otherDecoded ∧
        decodeAll ((collectLits input.signers input.constants input.template
            []).filter
          (· ∉ (input.signers.map (fun kv => kv.2.bech32m)).foldl setInsert [])) =
          .ok nonSignerDecoded ∧
        otherSorted.Perm otherDecoded ∧
        otherSorted.Pairwise (fun a b => a = b ∨ List.Lex (· < ·) a b) ∧
        nonSorted.Perm nonSignerDecoded ∧
        nonSorted.Pairwise (fun a b => a = b ∨ List.Lex (· < ·) a b) ∧
        rm.addresses = fpSigner.2.raw :: (otherSorted ++ nonSorted)) := by
  obtain ⟨finalList, indexMap, body, hcc, hrr, hrm⟩ :=
    resolveManifest_ok_inv input rm h
  subst hrm
  constructor
  · intro hse
    rw [createCanonicalAddressList.eq_def, if_pos hse] at hcc
    cases hdall : decodeAll (collectLits input.signers input.constants
        input.template []) with
    | error e => rw [hdall] at hcc; exact absurd hcc (by simp)
    | ok decoded =>
      rw [hdall] at hcc
      dsimp only at hcc
      cases hbm : buildIndexMap (sortByteArrays decoded) (collectLits
          input.signers input.constants input.template []) with
      | error e => rw [hbm] at hcc; exact absurd hcc (by simp)
      | ok m =>
        rw [hbm] at hcc
        simp only [Except.ok.injEq, Prod.mk.injEq] at hcc
        obtain ⟨hfl, -⟩ := hcc
        refine ⟨decoded, rfl, ?_, ?_⟩
        · dsimp only
          rw [← hfl]
          exact sortByteArrays_perm decoded
        · dsimp only
          rw [← hfl]
          exact sortByteArrays_sorted decoded
  · intro hsne
    rw [createCanonicalAddressList.eq_def, if_neg (by rw [hsne]; decide)] at hcc
    cases hfp : getFeePayerAlias input.template with
    | none => rw [hfp] at hcc; exact absurd hcc (by simp)
    | some fp =>
      rw [hfp] at hcc
      dsimp only at hcc
      cases hfind : input.signers.find? (fun kv => kv.1 = fp) with
      | none => rw [hfind] at hcc; exact absurd hcc (by simp)
      | some fpS =>
        rw [hfind] at hcc
        dsimp only at hcc
        cases hod : decodeAll (((input.signers.map (fun kv =>
            kv.2.bech32m)).foldl setInsert []).filter
            (· ≠ fpS.2.bech32m)) with
        | error e => rw [hod] at hcc; exact absurd hcc (by simp)
        | ok otherDecoded =>
          rw [hod] at hcc
          dsimp only at hcc
          cases hnd : decodeAll ((collectLits input.signers input.constants
              input.template []).filter
              (· ∉ (input.signers.map (fun kv => kv.2.bech32m)).foldl
                setInsert [])) with
          | error e => rw [hnd] at hcc; exact absurd hcc (by simp)
          | ok nonDecoded =>
            rw [hnd] at hcc
            dsimp only at hcc
            cases hbm : buildIndexMap (fpS.2.raw ::
                (sortByteArrays otherDecoded ++ sortByteArrays nonDecoded))
                (((input.signers.map (fun kv => kv.2.bech32m)).foldl setInsert
                  []).foldl setInsert (collectLits input.signers input.constants
                    input.template [])) with
            | error e => rw [hbm] at hcc; exact absurd hcc (by simp)
            | ok m =>
              rw [hbm] at hcc
              simp only [Except.ok.injEq, Prod.mk.injEq] at hcc
              obtain ⟨hfl, -⟩ := hcc
              refine ⟨fp, fpS, otherDecoded, nonDecoded,
                sortByteArrays otherDecoded, sortByteArrays nonDecoded,
                rfl, hfind, hod, rfl,
                sortByteArrays_perm _, sortByteArrays_sorted _,
                sortByteArrays_perm _, sortByteArrays_sorted _, ?_⟩
              dsimp only
              exact hfl.symm

set_option maxRecDepth 400000 in
/-- Witness for C1 at a concrete signed manifest with one signer whose
bech32m string decodes to thirty-two 0xaa bytes. -/
theorem resolveManifest_canonical_address_table_witness :
    ((⟨none, MVal.obj [("feePayer", MVal.str "alice")], [],
        [("alice", Signer.mk "lea1424242424242424242424242424242424242424242424242424qkch3mt" (List.replicate 32 170))]⟩ : ManifestInput).signers.isEmpty = true →
      ∃ decoded,
        decodeAll (collectLits (⟨none, MVal.obj [("feePayer", MVal.str "alice")], [],
        [("alice", Signer.mk "lea1424242424242424242424242424242424242424242424242424qkch3mt" (List.replicate 32 170))]⟩ : ManifestInput).signers (⟨none, MVal.obj [("feePayer", MVal.str "alice")], [],
        [("alice", Signer.mk "lea1424242424242424242424242424242424242424242424242424qkch3mt" (List.replicate 32 170))]⟩ : ManifestInput).constants (⟨none, MVal.obj [("feePayer", MVal.str "alice")], [],
        [("alice", Signer.mk "lea1424242424242424242424242424242424242424242424242424qkch3mt" (List.replicate 32 170))]⟩ : ManifestInput).template []) =
          .ok decoded ∧
        ({ addresses := [List.replicate 32 170], feePayer := some 0,
            body := MVal.obj [("feePayer", MVal.str "alice")] } : ResolvedManifest).addresses.Perm decoded ∧
        ({ addresses := [List.replicate 32 170], feePayer := some 0,
            body := MVal.obj [("feePayer", MVal.str "alice")] } : ResolvedManifest).addresses.Pairwise (fun a b => a = b ∨ List.Lex (· < ·) a b)) ∧
    ((⟨none, MVal.obj [("feePayer", MVal.str "alice")], [],
        [("alice", Signer.mk "lea1424242424242424242424242424242424242424242424242424qkch3mt" (List.replicate 32 170))]⟩ : ManifestInput).signers.isEmpty = false →
      ∃ fp fpSigner otherDecoded nonSignerDecoded otherSorted nonSorted,
        getFeePayerAlias (⟨none, MVal.obj [("feePayer", MVal.str "alice")], [],
        [("alice", Signer.mk "lea1424242424242424242424242424242424242424242424242424qkch3mt" (List.replicate 32 170))]⟩ : ManifestInput).template = some fp ∧
        (⟨none, MVal.obj [("feePayer", MVal.str "alice")], [],
        [("alice", Signer.mk "lea1424242424242424242424242424242424242424242424242424qkch3mt" (List.replicate 32 170))]⟩ : ManifestInput).signers.find? (fun kv => kv.1 = fp) = some fpSigner ∧
        decodeAll ((((⟨none, MVal.obj [("feePayer", MVal.str "alice")], [],
        [("alice", Signer.mk "lea1424242424242424242424242424242424242424242424242424qkch3mt" (List.replicate 32 170))]⟩ : ManifestInput).signers.map (fun kv => kv.2.bech32m)).foldl setInsert
            []).filter (· ≠ fpSigner.2.bech32m)) = .ok otherDecoded ∧
        decodeAll ((collectLits (⟨none, MVal.obj [("feePayer", MVal.str "alice")], [],
        [("alice", Signer.mk "lea1424242424242424242424242424242424242424242424242424qkch3mt" (List.replicate 32 170))]⟩ : ManifestInput).signers (⟨none, MVal.obj [("feePayer", MVal.str "alice")], [],
        [("alice", Signer.mk "lea1424242424242424242424242424242424242424242424242424qkch3mt" (List.replicate 32 170))]⟩ : ManifestInput).constants (⟨none, MVal.obj [("feePayer", MVal.str "alice")], [],
        [("alice", Signer.mk "lea1424242424242424242424242424242424242424242424242424qkch3mt" (List.replicate 32 170))]⟩ : ManifestInput).template
            []).filter
          (· ∉ ((⟨none, MVal.obj [("feePayer", MVal.str "alice")], [],
        [("alice", Signer.mk "lea1424242424242424242424242424242424242424242424242424qkch3mt" (List.replicate 32 170))]⟩ : ManifestInput).signers.map (fun kv => kv.2.bech32m)).foldl setInsert [])) =
          .ok nonSignerDecoded ∧
        otherSorted.Perm otherDecoded ∧
        otherSorted.Pairwise (fun a b => a = b ∨ List.Lex (· < ·) a b) ∧
        nonSorted.Perm nonSignerDecoded ∧
        nonSorted.Pairwise (fun a b => a = b ∨ List.Lex (· < ·) a b) ∧
        ({ addresses := [List.replicate 32 170], feePayer := some 0,
            body := MVal.obj [("feePayer", MVal.str "alice")] } : ResolvedManifest).addresses = fpSigner.2.raw :: (otherSorted ++ nonSorted)) := by
  have h3 : buildIndexMap ((Signer.mk "lea1424242424242424242424242424242424242424242424242424qkch3mt"
        (List.replicate 32 170)).raw ::
        (sortByteArrays [] ++ sortByteArrays []))
      (List.foldl setInsert [] (List.foldl setInsert []
        (List.map (fun kv => kv.2.bech32m)
          ([("alice", Signer.mk "lea1424242424242424242424242424242424242424242424242424qkch3mt"
              (List.replicate 32 170))] : List (String × Signer))))) =
      .ok [("lea1424242424242424242424242424242424242424242424242424qkch3mt", 0)] := by
    rw [sortByteArrays_nil]
    rfl
  have hc0 := createCanonicalAddressList_signers_eq [] "alice"
    [("alice", Signer.mk "lea1424242424242424242424242424242424242424242424242424qkch3mt" (List.replicate 32 170))]
    ("alice", Signer.mk "lea1424242424242424242424242424242424242424242424242424qkch3mt" (List.replicate 32 170))
    [] [] [("lea1424242424242424242424242424242424242424242424242424qkch3mt", 0)]
    rfl rfl rfl rfl h3
  have hc1 : createCanonicalAddressList
      (collectLits [("alice", Signer.mk "lea1424242424242424242424242424242424242424242424242424qkch3mt" (List.replicate 32 170))] []
        (MVal.obj [("feePayer", MVal.str "alice")]) [])
      (getFeePayerAlias (MVal.obj [("feePayer", MVal.str "alice")]))
      [("alice", Signer.mk "lea1424242424242424242424242424242424242424242424242424qkch3mt" (List.replicate 32 170))] =
      .ok ([List.replicate 32 170], [("lea1424242424242424242424242424242424242424242424242424qkch3mt", 0)]) :=
    hc0.trans (by rw [sortByteArrays_nil]; rfl)
  have hr1 : resolveToIndices
      [("alice", Signer.mk "lea1424242424242424242424242424242424242424242424242424qkch3mt" (List.replicate 32 170))] []
      [("lea1424242424242424242424242424242424242424242424242424qkch3mt", 0)]
      (MVal.obj [("feePayer", MVal.str "alice")]) = .ok (MVal.obj [("feePayer", MVal.str "alice")]) := rfl
  have hW : resolveManifest ⟨none, MVal.obj [("feePayer", MVal.str "alice")], [],
      [("alice", Signer.mk "lea1424242424242424242424242424242424242424242424242424qkch3mt" (List.replicate 32 170))]⟩ =
      .ok { addresses := [List.replicate 32 170], feePayer := some 0,
            body := MVal.obj [("feePayer", MVal.str "alice")] } :=
    (resolveManifest_none_ok (MVal.obj [("feePayer", MVal.str "alice")]) []
      [("alice", Signer.mk "lea1424242424242424242424242424242424242424242424242424qkch3mt" (List.replicate 32 170))]
      [List.replicate 32 170] [("lea1424242424242424242424242424242424242424242424242424qkch3mt", 0)]
      (MVal.obj [("feePayer", MVal.str "alice")]) hc1 hr1).trans (by rfl)
  exact resolveManifest_canonical_address_table _ _ hW

/-! ## C3 — duplicate addresses in the table -/

set_option maxRecDepth 400000 in
/-- C3 (the code violates the claim): a manifest with no signers that
references the same 32-byte address twice — once as bare lowercase hex
and once as 0x-prefixed hex — produces an address table with two equal
entries: the literal-string set does not deduplicate distinct spellings
of one address. -/
theorem resolveManifest_duplicate_address_table :
    ∃ rm, resolveManifest ⟨none,
        .arr [.str "$addr(aaaaaaaaaaaaaaaaaaaaaaaaaaaaaaaaaaaaaaaaaaaaaaaaaaaaaaaaaaaaaaaa)",
              .str "$addr(0xaaaaaaaaaaaaaaaaaaaaaaaaaaaaaaaaaaaaaaaaaaaaaaaaaaaaaaaaaaaaaaaa)"], [], []⟩ =
      .ok rm ∧ ¬ rm.addresses.Nodup := by
  have hsort : sortByteArrays [List.replicate 32 170, List.replicate 32 170] =
      [List.replicate 32 170, List.replicate 32 170] :=
    perm_pair_eq (List.mergeSort_perm _ _)
  refine ⟨{ addresses := [List.replicate 32 170, List.replicate 32 170],
             feePayer := none, body := .arr [.num 1, .num 1] }, ?_, by decide⟩
  have hc0 := createCanonicalAddressList_noSigners_eq
    ["aaaaaaaaaaaaaaaaaaaaaaaaaaaaaaaaaaaaaaaaaaaaaaaaaaaaaaaaaaaaaaaa",
     "0xaaaaaaaaaaaaaaaaaaaaaaaaaaaaaaaaaaaaaaaaaaaaaaaaaaaaaaaaaaaaaaaa"]
    (getFeePayerAlias (.arr [.str "$addr(aaaaaaaaaaaaaaaaaaaaaaaaaaaaaaaaaaaaaaaaaaaaaaaaaaaaaaaaaaaaaaaa)",
      .str "$addr(0xaaaaaaaaaaaaaaaaaaaaaaaaaaaaaaaaaaaaaaaaaaaaaaaaaaaaaaaaaaaaaaaa)"]))
    [List.replicate 32 170, List.replicate 32 170]
    [("aaaaaaaaaaaaaaaaaaaaaaaaaaaaaaaaaaaaaaaaaaaaaaaaaaaaaaaaaaaaaaaa", 1),
     ("0xaaaaaaaaaaaaaaaaaaaaaaaaaaaaaaaaaaaaaaaaaaaaaaaaaaaaaaaaaaaaaaaa", 1)]
    rfl
    (by rw [hsort]; rfl)
  have hc1 : createCanonicalAddressList
      (collectLits [] [] (.arr [.str "$addr(aaaaaaaaaaaaaaaaaaaaaaaaaaaaaaaaaaaaaaaaaaaaaaaaaaaaaaaaaaaaaaaa)",
        .str "$addr(0xaaaaaaaaaaaaaaaaaaaaaaaaaaaaaaaaaaaaaaaaaaaaaaaaaaaaaaaaaaaaaaaa)"]) [])
      (getFeePayerAlias (.arr [.str "$addr(aaaaaaaaaaaaaaaaaaaaaaaaaaaaaaaaaaaaaaaaaaaaaaaaaaaaaaaaaaaaaaaa)",
        .str "$addr(0xaaaaaaaaaaaaaaaaaaaaaaaaaaaaaaaaaaaaaaaaaaaaaaaaaaaaaaaaaaaaaaaa)"])) [] =
      .ok ([List.replicate 32 170, List.replicate 32 170],
        [("aaaaaaaaaaaaaaaaaaaaaaaaaaaaaaaaaaaaaaaaaaaaaaaaaaaaaaaaaaaaaaaa", 1),
         ("0xaaaaaaaaaaaaaaaaaaaaaaaaaaaaaaaaaaaaaaaaaaaaaaaaaaaaaaaaaaaaaaaa", 1)]) :=
    hc0.trans (by rw [hsort])
  exact (resolveManifest_none_ok
    (.arr [.str "$addr(aaaaaaaaaaaaaaaaaaaaaaaaaaaaaaaaaaaaaaaaaaaaaaaaaaaaaaaaaaaaaaaa)",
      .str "$addr(0xaaaaaaaaaaaaaaaaaaaaaaaaaaaaaaaaaaaaaaaaaaaaaaaaaaaaaaaaaaaaaaaa)"]) [] []
    [List.replicate 32 170, List.replicate 32 170]
    [("aaaaaaaaaaaaaaaaaaaaaaaaaaaaaaaaaaaaaaaaaaaaaaaaaaaaaaaaaaaaaaaa", 1),
     ("0xaaaaaaaaaaaaaaaaaaaaaaaaaaaaaaaaaaaaaaaaaaaaaaaaaaaaaaaaaaaaaaaa", 1)]
    (.arr [.num 1, .num 1]) hc1 rfl).trans (by rfl)

end Ltm
